import Mathlib

/-!
# Native-messaging host and PC/SC monitor of web-eid

Shallow embedding of `host-qt/chrome-host.cpp` (`QtHost::processMessage`,
`QtHost::write`, `QtHost::shutdown`) and of `src/qt/qpcsc.cpp` (`QtPCSC::run`,
`QPCSCReaderWorker::connectCard`, `QPCSCReaderWorker::transmit`).

* The Qt value types the code manipulates (`QJsonObject`, `QVariantMap`, `QString`)
  become lists of key/value pairs and Lean strings.
* Library and sibling code that is called but is not part of the translation unit
  (the `QUrl` parser, `QJsonDocument::fromVariant(..).toJson()`, the handlers
  `Sign::sign`, `Sign::select`, `Authenticate::authenticate`, the byte order of
  the machine) is collected in the record `Deps` and passed as a parameter.
* Everything observable that `processMessage` does (writing a response,
  requesting shutdown, loading a translation, running a handler) is recorded,
  in program order, in a list of `Effect`s returned next to the new host state.
  Log lines (`_log`) are not recorded.
* What the PC/SC calls return is an input of the monitor and of the worker
  (`RunEnv`, `CycleEnv`, `ConnectEnv`, `TransmitEnv`); the calls made and the
  signals emitted are recorded, in program order, in a list of `TraceStep`s.
  The loop of `QtPCSC::run` consumes one `CycleEnv` per poll cycle.  The mutex
  around the writes to `known` is not modelled.
-/

namespace WebEid

/-! ## Qt value types -/

/-- JSON value as held by `QJsonValue`; `undefined` is what `QJsonObject::value`
returns for a key that is absent.  Numbers are carried as integers: no code
embedded here inspects them. -/
inductive QJsonValue where
  | null
  | bool (b : Bool)
  | double (x : Int)
  | string (s : String)
  | array (xs : List QJsonValue)
  | object (kvs : List (String × QJsonValue))
  | undefined

/-- Member `QJsonValue::toString()`: the string when the value is a string, the null
(empty) `QString` for every other kind of value. -/
def QJsonValue.toString : QJsonValue → String
  | .string s => s
  | _ => ""

/-- Type `QJsonObject`: the key/value pairs of a parsed JSON object. -/
structure QJsonObject where
  fields : List (String × QJsonValue)

/-- Member `QJsonObject::isEmpty()`. -/
def QJsonObject.isEmpty (o : QJsonObject) : Bool := o.fields.isEmpty

/-- Member `QJsonObject::contains(key)`. -/
def QJsonObject.contains (o : QJsonObject) (key : String) : Bool :=
  (o.fields.lookup key).isSome

/-- Member `QJsonObject::value(key)`: `undefined` when the key is absent. -/
def QJsonObject.value (o : QJsonObject) (key : String) : QJsonValue :=
  (o.fields.lookup key).getD QJsonValue.undefined

/-- A `QVariant` is represented by the JSON value it converts to. -/
abbrev QVariant := QJsonValue

/-- Type `QVariantMap` (`QMap<QString, QVariant>`): key/value pairs, kept in key order
by `insert` as `QMap` does. -/
structure QVariantMap where
  entries : List (String × QVariant)

/-- Ordered insertion into the entry list: an existing key is overwritten. -/
def insertEntry (k : String) (v : QVariant) : List (String × QVariant) → List (String × QVariant)
  | [] => [(k, v)]
  | (k1, v1) :: rest =>
      if k = k1 then (k, v) :: rest
      else if k.toList < k1.toList then (k, v) :: (k1, v1) :: rest
      else (k1, v1) :: insertEntry k v rest

/-- Assignment `resp[key] = value` on a `QVariantMap`. -/
def QVariantMap.insert (m : QVariantMap) (k : String) (v : QVariant) : QVariantMap :=
  ⟨insertEntry k v m.entries⟩

/-- Member `QVariantMap::contains(key)`. -/
def QVariantMap.contains (m : QVariantMap) (k : String) : Bool :=
  (m.entries.lookup k).isSome

/-- Entry stored under `key`, if any. -/
def QVariantMap.find (m : QVariantMap) (k : String) : Option QVariant :=
  m.entries.lookup k

/-- Brace initialiser `{{k1, v1}, {k2, v2}, ...}` of a `QVariantMap`. -/
def QVariantMap.ofPairs (kvs : List (String × QVariant)) : QVariantMap :=
  kvs.foldl (fun m kv => m.insert kv.1 kv.2) ⟨[]⟩

/-- Type `QUrl`: the two components `processMessage` looks at. -/
structure QUrl where
  scheme : String
  host : String

/-! ## The host -/

/-- Default of the `VERSION` macro (lines 48-51). -/
def VERSION : String := "1.0.0.0"

/-- Constant `EXIT_FAILURE` of `<stdlib.h>`. -/
def EXIT_FAILURE : Int := 1

/-- One byte of output. -/
abbrev Byte := Fin 256

/-- Member variables of `QtHost` that `processMessage` reads or assigns. -/
structure QtHost where
  origin : String
  friendly_origin : String

/-- Outcome of a handler call inside the `try` block: it returns a response
map, or it throws one of the three exception types that the `catch` clauses of
`processMessage` name (`UserCanceledError`, `std::runtime_error`,
`std::invalid_argument`), or it throws an exception of any other type
(`otherException`; for instance `std::bad_alloc` or `std::out_of_range`), which
no clause of lines 175-184 matches. -/
inductive HandlerResult where
  | returned (resp : QVariantMap)
  | userCanceled
  | runtimeError
  | invalidArgument
  | otherException

/-- The three handlers reachable from the command dispatch. -/
inductive Handler where
  | sign
  | select
  | authenticate

/-- What `write` hands to the output: the response map after `id` and `result`
were filled in, and the bytes put on `out`. -/
structure Output where
  resp : QVariantMap
  bytes : List Byte

/-- Observable actions of `processMessage`, in program order; `uncaught` is an
exception that leaves `processMessage`. -/
inductive Effect where
  | write (o : Output)
  | shutdown (exitcode : Int)
  | loadTranslation (lang : String)
  | handler (h : Handler)
  | uncaught

/-- Code called by `processMessage` and `write` that lives outside the file. -/
structure Deps where
  /-- Constructor `QUrl(const QString &)`. -/
  url : String → QUrl
  /-- Handler `Sign::sign(this, json)`. -/
  sign : QtHost → QJsonObject → HandlerResult
  /-- Handler `Sign::select(this, json)`. -/
  select : QtHost → QJsonObject → HandlerResult
  /-- Handler `Authenticate::authenticate(this, json)`. -/
  authenticate : QtHost → QJsonObject → HandlerResult
  /-- Encoder `QJsonDocument::fromVariant(resp).toJson()`. -/
  toJson : QVariantMap → List Byte
  /-- Byte order of the machine. -/
  bigEndian : Bool

/-- Object representation of a `quint32` in memory (4 bytes, native order). -/
def quint32Bytes (bigEndian : Bool) (n : Nat) : List Byte :=
  let b0 : Byte := ⟨n % 256, Nat.mod_lt _ (by decide)⟩
  let b1 : Byte := ⟨n / 256 % 256, Nat.mod_lt _ (by decide)⟩
  let b2 : Byte := ⟨n / 65536 % 256, Nat.mod_lt _ (by decide)⟩
  let b3 : Byte := ⟨n / 16777216 % 256, Nat.mod_lt _ (by decide)⟩
  if bigEndian then [b3, b2, b1, b0] else [b0, b1, b2, b3]

/-- Value of a `quint32` read back from its 4 bytes in native order. -/
def quint32Value (bigEndian : Bool) : List Byte → Option Nat
  | [a, b, c, e] =>
      if bigEndian then some (a.val * 16777216 + b.val * 65536 + c.val * 256 + e.val)
      else some (a.val + b.val * 256 + c.val * 65536 + e.val * 16777216)
  | _ => none

/-- Member `QtHost::write` (lines 189-203): fill in `id` and `result`, encode, and emit
the length followed by the payload. -/
def write (d : Deps) (resp : QVariantMap) (nonce : String) : Output :=
  let resp1 := if nonce ≠ "" then resp.insert "id" (QJsonValue.string nonce) else resp
  let resp2 := if !resp1.contains "result" then resp1.insert "result" (QJsonValue.string "ok") else resp1
  let response := d.toJson resp2
  let responseLength := response.length % 2 ^ 32
  ⟨resp2, quint32Bytes d.bigEndian responseLength ++ response⟩

/-- Value of `resp` after the `try` statement (lines 109-184): the handler's own
map when it returns, the map assigned by the matching `catch` clause when it
throws one of the three named types, and `none` when it throws anything else:
then no clause matches and the exception leaves `processMessage`. -/
def caught : HandlerResult → Option QVariantMap
  | .returned resp => some resp
  | .userCanceled => some (QVariantMap.ofPairs [("result", QJsonValue.string "user_cancel")])
  | .runtimeError => some (QVariantMap.ofPairs [("result", QJsonValue.string "technical_error")])
  | .invalidArgument =>
      some (QVariantMap.ofPairs [("result", QJsonValue.string "invalid_argument")])
  | .otherException => none

/-- Command dispatch (lines 162-174) together with the `catch` clauses: the
response map, or `none` when an exception is on its way out, and the handler
that ran, if any. -/
def dispatch (d : Deps) (self : QtHost) (json : QJsonObject) :
    Option QVariantMap × List Effect :=
  let type := (json.value "type").toString
  if type = "VERSION" then
    (some (QVariantMap.ofPairs [("version", QJsonValue.string VERSION)]), [])
  else if type = "SIGN" then
    (caught (d.sign self json), [Effect.handler Handler.sign])
  else if type = "CERT" then
    (caught (d.select self json), [Effect.handler Handler.select])
  else if type = "AUTH" then
    (caught (d.authenticate self json), [Effect.handler Handler.authenticate])
  else
    (some (QVariantMap.ofPairs [("result", QJsonValue.string "invalid_argument")]), [])

/-- End of `processMessage` after the `try` statement: `write(resp, msgnonce)` of
line 186 when control gets there, and nothing but the escaping exception when
no `catch` clause matched. -/
def finish (d : Deps) (resp : Option QVariantMap) (msgnonce : String) : List Effect :=
  match resp with
  | some r => [Effect.write (write d r msgnonce)]
  | none => [Effect.uncaught]

/-- Responses written by `finish`: one when line 186 is reached, none otherwise. -/
def responses (d : Deps) (resp : Option QVariantMap) (msgnonce : String) : List Output :=
  match resp with
  | some r => [write d r msgnonce]
  | none => []

/-- The two statements `write(resp, json.value("id").toString()); return shutdown(EXIT_FAILURE);`
that end every rejecting branch: the response is written, then `QtHost::shutdown`
(lines 88-99) closes the input and exits with the given status. -/
def reject (d : Deps) (resp : QVariantMap) (json : QJsonObject) : List Effect :=
  [Effect.write (write d resp (json.value "id").toString), Effect.shutdown EXIT_FAILURE]

/-- Assignments of lines 129-136: the origin claimed by the message becomes the
origin of the host, and the friendly origin is "localhost" for file URLs and
the URL host otherwise. -/
def pinOrigin (d : Deps) (json : QJsonObject) : QtHost :=
  { origin := (json.value "origin").toString,
    friendly_origin :=
      if (d.url (json.value "origin").toString).scheme = "file" then "localhost"
      else (d.url (json.value "origin").toString).host }

/-- Member `QtHost::processMessage` (lines 102-187). -/
def processMessage (d : Deps) (self : QtHost) (json : QJsonObject) : QtHost × List Effect :=
  if json.isEmpty then
    (self, reject d (QVariantMap.ofPairs [("result", QJsonValue.string "invalid_argument"),
                                          ("version", QJsonValue.string VERSION)]) json)
  else if !json.contains "type" || !json.contains "id" || !json.contains "origin" then
    (self, reject d (QVariantMap.ofPairs [("result", QJsonValue.string "invalid_argument")]) json)
  else
    let msgnonce := (json.value "id").toString
    if self.origin = "" then
      let url := d.url (json.value "origin").toString
      if url.scheme = "https" ∨ url.scheme = "file" ∨ url.host = "localhost" then
        let self1 := pinOrigin d json
        let r := dispatch d self1 json
        (self1, Effect.loadTranslation (json.value "lang").toString :: r.2
                  ++ finish d r.1 msgnonce)
      else
        (self, reject d (QVariantMap.ofPairs [("result", QJsonValue.string "not_allowed")]) json)
    else if self.origin ≠ (json.value "origin").toString then
      (self, reject d (QVariantMap.ofPairs [("result", QJsonValue.string "invalid_argument")]) json)
    else
      let r := dispatch d self json
      (self, r.2 ++ finish d r.1 msgnonce)

/-- The host handles the messages of a list one after the other; the state
after the last one.  (Handling is not cut short at a shutdown request, so the
list also covers messages that were queued before the event loop stopped.) -/
def processAll (d : Deps) (self : QtHost) : List QJsonObject → QtHost
  | [] => self
  | json :: rest => processAll d (processMessage d self json).1 rest

/-- State of a freshly constructed host: no origin yet. -/
def QtHost.initial : QtHost := ⟨"", ""⟩

/-! ## Reading an effect list -/

/-- Responses written, in order. -/
def outputs : List Effect → List Output
  | [] => []
  | Effect.write o :: es => o :: outputs es
  | _ :: es => outputs es

/-- Exit codes of the shutdown requests, in order. -/
def shutdowns : List Effect → List Int
  | [] => []
  | Effect.shutdown c :: es => c :: shutdowns es
  | _ :: es => shutdowns es

/-- Handlers that ran, in order. -/
def handlersRun : List Effect → List Handler
  | [] => []
  | Effect.handler h :: es => h :: handlersRun es
  | _ :: es => handlersRun es

/-- Number of exceptions that left `processMessage`. -/
def escapes : List Effect → Nat
  | [] => 0
  | Effect.uncaught :: es => escapes es + 1
  | _ :: es => escapes es

/-- Condition of line 128 on the parsed origin: https, file or localhost. -/
def secure (url : QUrl) : Prop :=
  url.scheme = "https" ∨ url.scheme = "file" ∨ url.host = "localhost"

instance (url : QUrl) : Decidable (secure url) := by
  unfold secure; exact inferInstance

/-- The message passes the field checks (line 116) and the origin check
(line 128 for a first message, line 155 afterwards). -/
def validated (d : Deps) (self : QtHost) (json : QJsonObject) : Prop :=
  json.contains "type" = true ∧ json.contains "id" = true ∧ json.contains "origin" = true ∧
    (if self.origin = "" then secure (d.url (json.value "origin").toString)
     else self.origin = (json.value "origin").toString)

instance (d : Deps) (self : QtHost) (json : QJsonObject) : Decidable (validated d self json) := by
  unfold validated; exact inferInstance

/-- Host state in which the command dispatch runs for a validated message. -/
def hostAtDispatch (d : Deps) (self : QtHost) (json : QJsonObject) : QtHost :=
  if self.origin = "" then pinOrigin d json else self

/-- Message type outside the dispatch table. -/
def unrecognized (type : String) : Prop :=
  type ≠ "VERSION" ∧ type ≠ "SIGN" ∧ type ≠ "CERT" ∧ type ≠ "AUTH"

instance (type : String) : Decidable (unrecognized type) := by
  unfold unrecognized; exact inferInstance

/-! ## A concrete instance of the parameters, for the scenarios -/

/-- Reader for URLs of the shape `scheme://host[:port][/path]`; anything else
has empty scheme and host. -/
def simpleUrl (s : String) : QUrl :=
  match s.toList.dropWhile (fun c => c != ':') with
  | ':' :: '/' :: '/' :: rest =>
      ⟨String.mk (s.toList.takeWhile (fun c => c != ':')),
       String.mk (rest.takeWhile (fun c => c != '/' && c != ':'))⟩
  | _ => ⟨"", ""⟩

/-- Bytes of a string of 8-bit characters. -/
def latin1 (s : String) : List Byte :=
  s.toList.map (fun c => (⟨c.toNat % 256, Nat.mod_lt _ (by decide)⟩ : Byte))

/-- Compact printer for maps of strings: quoted key, colon, quoted value,
entries separated by commas, inside braces. -/
def compactJson (m : QVariantMap) : List Byte :=
  [123] ++ List.intercalate [44]
      (m.entries.map (fun kv => [34] ++ latin1 kv.1 ++ [34, 58, 34] ++ latin1 kv.2.toString ++ [34]))
    ++ [125]

/-- Parameters used in the scenarios: signing succeeds with a fixed map, selecting
a certificate is cancelled by the user, authentication fails technically. -/
def demoDeps : Deps where
  url := simpleUrl
  sign := fun _ _ => HandlerResult.returned (QVariantMap.ofPairs [("signature", QJsonValue.string "00")])
  select := fun _ _ => HandlerResult.userCanceled
  authenticate := fun _ _ => HandlerResult.runtimeError
  toJson := compactJson
  bigEndian := false

/-- Message `\x7b"id": id, "type": type, "origin": origin\x7d` with string fields. -/
def message (id type origin : String) : QJsonObject :=
  ⟨[("id", QJsonValue.string id), ("type", QJsonValue.string type),
    ("origin", QJsonValue.string origin)]⟩

/-- Host whose origin was pinned by an earlier message. -/
def pinnedHost : QtHost := ⟨"https://example.com", "example.com"⟩

/-- Message whose id is a number: `\x7b"id": 7, "type": type, "origin": origin\x7d`. -/
def messageNumericId (type origin : String) : QJsonObject :=
  ⟨[("id", QJsonValue.double 7), ("type", QJsonValue.string type),
    ("origin", QJsonValue.string origin)]⟩

/-! ## PC/SC monitor (`src/qt/qpcsc.cpp`): constants and containers

Types and constants of the PC/SC API (`winscard.h`, `pcsclite.h`) are given
their standard values.  A `DWORD` state word is a natural number and flags are
tested with bitwise and.  A `LONG` status code is an integer, written with the
32-bit pattern of the API constant. -/

/-- Status code returned by a PC/SC call (`LONG`). -/
abbrev LONG := Int

/-- State word of a reader (`DWORD`). -/
abbrev DWORD := Nat

/-- Constant `SCARD_S_SUCCESS`. -/
def SCARD_S_SUCCESS : LONG := 0
/-- Constant `SCARD_E_INVALID_PARAMETER`. -/
def SCARD_E_INVALID_PARAMETER : LONG := 0x80100004
/-- Constant `SCARD_E_UNKNOWN_READER`. -/
def SCARD_E_UNKNOWN_READER : LONG := 0x80100009
/-- Constant `SCARD_E_TIMEOUT`. -/
def SCARD_E_TIMEOUT : LONG := 0x8010000A
/-- Constant `SCARD_E_SHARING_VIOLATION`. -/
def SCARD_E_SHARING_VIOLATION : LONG := 0x8010000B
/-- Constant `SCARD_E_NO_SERVICE`. -/
def SCARD_E_NO_SERVICE : LONG := 0x8010001D
/-- Constant `SCARD_W_UNRESPONSIVE_CARD`. -/
def SCARD_W_UNRESPONSIVE_CARD : LONG := 0x80100066

/-- Constant `SCARD_STATE_UNAWARE`. -/
def SCARD_STATE_UNAWARE : DWORD := 0x0000
/-- Constant `SCARD_STATE_IGNORE`. -/
def SCARD_STATE_IGNORE : DWORD := 0x0001
/-- Constant `SCARD_STATE_CHANGED`. -/
def SCARD_STATE_CHANGED : DWORD := 0x0002
/-- Constant `SCARD_STATE_UNKNOWN`. -/
def SCARD_STATE_UNKNOWN : DWORD := 0x0004
/-- Constant `SCARD_STATE_UNAVAILABLE`. -/
def SCARD_STATE_UNAVAILABLE : DWORD := 0x0008
/-- Constant `SCARD_STATE_EMPTY`. -/
def SCARD_STATE_EMPTY : DWORD := 0x0010
/-- Constant `SCARD_STATE_PRESENT`. -/
def SCARD_STATE_PRESENT : DWORD := 0x0020
/-- Constant `SCARD_STATE_ATRMATCH`. -/
def SCARD_STATE_ATRMATCH : DWORD := 0x0040
/-- Constant `SCARD_STATE_EXCLUSIVE`. -/
def SCARD_STATE_EXCLUSIVE : DWORD := 0x0080
/-- Constant `SCARD_STATE_INUSE`. -/
def SCARD_STATE_INUSE : DWORD := 0x0100
/-- Constant `SCARD_STATE_MUTE`. -/
def SCARD_STATE_MUTE : DWORD := 0x0200

/-- Constant `SCARD_PROTOCOL_T0`. -/
def SCARD_PROTOCOL_T0 : DWORD := 1
/-- Constant `SCARD_PROTOCOL_T1`. -/
def SCARD_PROTOCOL_T1 : DWORD := 2
/-- Constant `SCARD_SHARE_SHARED`. -/
def SCARD_SHARE_SHARED : DWORD := 2
/-- Constant `SCARD_LEAVE_CARD`. -/
def SCARD_LEAVE_CARD : DWORD := 0
/-- Constant `SCARD_RESET_CARD`. -/
def SCARD_RESET_CARD : DWORD := 1

/-- The name `PNP_READER_NAME` (line 73): backslash backslash ?PnP? backslash
Notification. -/
def PNP_READER_NAME : String :=
  String.mk [Char.ofNat 92, Char.ofNat 92, '?', 'P', 'n', 'P', '?', Char.ofNat 92,
    'N', 'o', 't', 'i', 'f', 'i', 'c', 'a', 't', 'i', 'o', 'n']

/-- Test `state & flag` of C: some bit of `flag` is set in `state`. -/
def hasFlag (state flag : DWORD) : Bool := state &&& flag != 0

/-- Expression `state & ~flag` of C: the bits of `flag` cleared. -/
def clearFlag (state flag : DWORD) : DWORD := state ^^^ (state &&& flag)

/-- Member `QtPCSC::stateNames` (lines 125-140). -/
def stateNames (state : DWORD) : List String :=
  (if hasFlag state SCARD_STATE_IGNORE then ["IGNORE"] else [])
    ++ (if hasFlag state SCARD_STATE_CHANGED then ["CHANGED"] else [])
    ++ (if hasFlag state SCARD_STATE_UNKNOWN then ["UNKNOWN"] else [])
    ++ (if hasFlag state SCARD_STATE_UNAVAILABLE then ["UNAVAILABLE"] else [])
    ++ (if hasFlag state SCARD_STATE_EMPTY then ["EMPTY"] else [])
    ++ (if hasFlag state SCARD_STATE_PRESENT then ["PRESENT"] else [])
    ++ (if hasFlag state SCARD_STATE_ATRMATCH then ["ATRMATCH"] else [])
    ++ (if hasFlag state SCARD_STATE_EXCLUSIVE then ["EXCLUSIVE"] else [])
    ++ (if hasFlag state SCARD_STATE_INUSE then ["INUSE"] else [])
    ++ (if hasFlag state SCARD_STATE_MUTE then ["MUTE"] else [])

/-- The member `known`: reader name to last stored state, in key order. -/
abbrev Known := List (String × DWORD)

/-- Assignment `known[r] = v`: overwrite the entry of `r` or add it in key order. -/
def assign (r : String) (v : DWORD) : Known → Known
  | [] => [(r, v)]
  | (k, w) :: rest =>
      if r = k then (r, v) :: rest
      else if r.toList < k.toList then (r, v) :: (k, w) :: rest
      else (k, w) :: assign r v rest

/-- Value read by `known[r]`: the stored state, or the default 0 that
`operator[]` inserts for an absent key. -/
def cached (known : Known) (r : String) : DWORD :=
  (known.lookup r).getD SCARD_STATE_UNAWARE

/-- Side effect of reading `known[r]`: an absent key is added with state 0. -/
def touch (r : String) (known : Known) : Known :=
  if (known.lookup r).isSome then known else assign r SCARD_STATE_UNAWARE known

/-- Call `known.remove(e)`. -/
def removeReader (e : String) (known : Known) : Known :=
  known.filter (fun kv => kv.1 != e)

/-- Call `known.keys()`. -/
def keys (known : Known) : List String := known.map Prod.fst

/-- Insertion into the `std::set<std::string>` of reader names: no duplicates,
ascending order. -/
def setInsert (name : String) : List String → List String
  | [] => [name]
  | n :: rest =>
      if name = n then n :: rest
      else if name.toList < n.toList then name :: n :: rest
      else n :: setInsert name rest

/-- Member `QtPCSC::getReaders` (lines 148-157): every known reader with the
names of its state flags. -/
def getReaders (known : Known) : List (String × List String) :=
  known.map (fun kv => (kv.1, stateNames kv.2))

/-- Signals emitted by `QtPCSC`. -/
inductive Signal where
  | error (reader : String) (code : LONG)
  | readerRemoved (name : String)
  | readerAttached (name : String)
  | readerListChanged (readers : List (String × List String))
  | cardInserted (reader : String) (atr : List Byte)
  | cardRemoved (reader : String)
  deriving DecidableEq

/-- Entry of the status vector (`SCARD_READERSTATE`; the user data pointer is
always null and left out). -/
structure SCARD_READERSTATE where
  szReader : String
  dwCurrentState : DWORD
  dwEventState : DWORD
  cbAtr : Nat
  rgbAtr : List Byte
  deriving DecidableEq

/-- Entry as the code initialises it (lines 244 and 251): event state unaware,
no ATR. -/
def queryEntry (reader : String) (current : DWORD) : SCARD_READERSTATE :=
  ⟨reader, current, SCARD_STATE_UNAWARE, 0, []⟩

/-- What `SCardGetStatusChange` writes into one entry of the vector. -/
structure Reported where
  dwEventState : DWORD
  cbAtr : Nat
  rgbAtr : List Byte
  deriving DecidableEq

/-- The status vector after `SCardGetStatusChange` filled it in place, entry by
entry; entries beyond the reported ones stay as initialised. -/
def fill : List SCARD_READERSTATE → List Reported → List SCARD_READERSTATE
  | [], _ => []
  | s :: ss, [] => s :: ss
  | s :: ss, r :: rs =>
      { s with dwEventState := r.dwEventState, cbAtr := r.cbAtr, rgbAtr := r.rgbAtr } :: fill ss rs

/-- PC/SC calls made by the monitor and by the reader worker. -/
inductive Call where
  | establishContext
  | releaseContext
  | listReaders (withBuffer : Bool)
  | getStatusChange (timeout : Nat) (statuses : List SCARD_READERSTATE)
  | connect (reader : String) (shareMode : DWORD) (protocols : DWORD)
  | beginTransaction
  | endTransaction (disposition : DWORD)
  | disconnect (disposition : DWORD)
  | transmit (apdu : List Byte) (capacity : Nat)
  deriving DecidableEq

/-- One step of a trace: a PC/SC call or an emitted signal of type `σ`. -/
inductive TraceStep (σ : Type) where
  | call (c : Call)
  | emit (s : σ)
  deriving DecidableEq

/-! ## PC/SC monitor: `QtPCSC::run` -/

/-- Variables of `QtPCSC::run` that live across poll cycles: the members `pnp`
and `known` and the locals `list`, `change`, `readernames`, `pnpstate`. -/
structure Monitor where
  pnp : Bool
  known : Known
  list : Bool
  change : Bool
  readernames : List String
  pnpstate : DWORD
  deriving DecidableEq

/-- What the PC/SC calls of one poll cycle return: the two `SCardListReaders`
calls (status and size; status and the buffer after `readers.resize(size)`) and
`SCardGetStatusChange` (status and what it wrote into the vector). -/
structure CycleEnv where
  listSize : LONG × Nat
  listData : LONG × List Char
  wait : LONG × List Reported

/-- How a poll cycle, or the loop, ends: `again` the loop goes on, `leave`
the loop condition of line 322 is false, `returned` the function returned from
inside the loop, `undefined` the iterator of line 206 left the buffer. -/
inductive Next where
  | again
  | leave
  | returned
  | undefined
  deriving DecidableEq

/-- The terminator of a C string. -/
def NUL : Char := Char.ofNat 0

/-- Outcome of the name extraction loop. -/
inductive Extracted where
  | names (readernames : List String)
  | pastEnd
  | outOfFuel
  deriving DecidableEq

/-- Loop of lines 206-213 from the iterator position on: `chars` is the rest
of the buffer from `i`, one unit of fuel is used per iteration.  The name runs
up to the next NUL; when there is none the name reaches the end of the buffer
and `++i` steps past `readers.end()`. -/
def extractNames : Nat → List Char → List String → Extracted
  | _, [], readernames => Extracted.names readernames
  | 0, _ :: _, _ => Extracted.outOfFuel
  | fuel + 1, c :: cs, readernames =>
      match (c :: cs).dropWhile (fun x => x != NUL) with
      | [] => Extracted.pastEnd
      | _ :: rest =>
          if (c :: cs).takeWhile (fun x => x != NUL) = [] then extractNames fuel rest readernames
          else extractNames fuel rest
            (setInsert (String.mk ((c :: cs).takeWhile (fun x => x != NUL))) readernames)

/-- Loop of lines 215-225 over `known.keys()`: a reader that is not among
`readernames` is removed and announced, each time with a list-changed signal. -/
def removeUnknown (readernames : List String) : List String → Known → Known × List Signal
  | [], known => (known, [])
  | e :: es, known =>
      if e ∈ readernames then removeUnknown readernames es known
      else
        ((removeUnknown readernames es (removeReader e known)).1,
         Signal.readerRemoved e :: Signal.readerListChanged (getReaders (removeReader e known))
           :: (removeUnknown readernames es (removeReader e known)).2)

/-- Loop of lines 227-236 over `readernames`: a reader that is not in `known` is
stored with state unaware and announced; `change` is set. -/
def addNew : List String → Known → Bool → Known × Bool × List Signal
  | [], known, change => (known, change, [])
  | e :: es, known, change =>
      if (known.lookup e).isSome then addNew es known change
      else
        ((addNew es (assign e SCARD_STATE_UNAWARE known) true).1,
         (addNew es (assign e SCARD_STATE_UNAWARE known) true).2.1,
         Signal.readerAttached e :: (addNew es (assign e SCARD_STATE_UNAWARE known) true).2.2)

/-- Lines 214-236: the re-listing step on the cache, for the enumerated names. -/
def relist (known : Known) (change : Bool) (readernames : List String) :
    Known × Bool × List Signal :=
  let r := removeUnknown readernames (keys known) known
  let a := addNew readernames r.1 change
  (a.1, a.2.1, r.2 ++ a.2.2)

/-- Lines 188-239: the listing phase of a cycle.  The third component is the way
the cycle ends when it ends here. -/
def listPhase (s : Monitor) (env : CycleEnv) :
    Monitor × List (TraceStep Signal) × Option Next :=
  if s.list then
    if env.listSize.1 ≠ SCARD_S_SUCCESS ∨ env.listSize.2 = 0 then
      ({ s with readernames := [] },
       [TraceStep.call (Call.listReaders false), TraceStep.emit (Signal.error "" env.listSize.1)],
       some Next.returned)
    else if env.listData.1 ≠ SCARD_S_SUCCESS then
      ({ s with readernames := [] },
       [TraceStep.call (Call.listReaders false), TraceStep.call (Call.listReaders true),
        TraceStep.emit (Signal.error "" env.listData.1)],
       some Next.returned)
    else
      match extractNames env.listData.2.length env.listData.2 [] with
      | Extracted.names readernames =>
          let r := relist s.known s.change readernames
          ({ s with known := r.1, change := r.2.1, readernames := readernames, list := false },
           [TraceStep.call (Call.listReaders false), TraceStep.call (Call.listReaders true)]
             ++ r.2.2.map TraceStep.emit,
           none)
      | _ =>
          ({ s with readernames := [] },
           [TraceStep.call (Call.listReaders false), TraceStep.call (Call.listReaders true)],
           some Next.undefined)
  else (s, [], none)

/-- Lines 241-252: the status query vector, one entry per reader name with the
cached state, and the plug-and-play pseudo-reader last when `pnp` is set (on
macOS with state unaware). -/
def statusVector (mac : Bool) (s : Monitor) : List SCARD_READERSTATE :=
  s.readernames.map (fun r => queryEntry r (cached s.known r))
    ++ (if s.pnp then
          [queryEntry PNP_READER_NAME (if mac then SCARD_STATE_UNAWARE else s.pnpstate)]
        else [])

/-- State after lines 241-252: reading `known[r]` adds absent names, and on macOS
`pnpstate` is reset when the pseudo-reader is used. -/
def afterQuery (mac : Bool) (s : Monitor) : Monitor :=
  { s with known := s.readernames.foldl (fun k r => touch r k) s.known,
           pnpstate := if s.pnp && mac then SCARD_STATE_UNAWARE else s.pnpstate }

/-- Lines 268-276: the pseudo-reader entry, last in the vector, is looked at and
dropped. -/
def pnpEvent (s : Monitor) (statuses : List SCARD_READERSTATE) :
    Monitor × List SCARD_READERSTATE :=
  if s.pnp then
    match statuses.getLast? with
    | some back =>
        if hasFlag back.dwEventState SCARD_STATE_CHANGED then
          ({ s with pnpstate := clearFlag back.dwEventState SCARD_STATE_CHANGED, list := true },
           statuses.dropLast)
        else (s, statuses.dropLast)
    | none => (s, statuses.dropLast)
  else (s, statuses)

/-- Body of the loop of lines 277-315 for one entry of the vector. -/
def diffEntry (s : Monitor) (i : SCARD_READERSTATE) : Monitor × List Signal :=
  if !hasFlag i.dwEventState SCARD_STATE_CHANGED then (s, [])
  else if hasFlag i.dwEventState SCARD_STATE_UNKNOWN then
    ({ s with list := true, known := touch i.szReader s.known },
     if hasFlag (cached s.known i.szReader) SCARD_STATE_PRESENT then
       [Signal.cardRemoved i.szReader]
     else [])
  else if hasFlag i.dwEventState SCARD_STATE_PRESENT
      && !hasFlag (cached s.known i.szReader) SCARD_STATE_PRESENT then
    if hasFlag i.dwEventState SCARD_STATE_MUTE then
      ({ s with known := assign i.szReader (clearFlag i.dwEventState SCARD_STATE_CHANGED) s.known },
       [Signal.error i.szReader SCARD_W_UNRESPONSIVE_CARD])
    else
      ({ s with change := true,
                known := assign i.szReader (clearFlag i.dwEventState SCARD_STATE_CHANGED) s.known },
       [Signal.cardInserted i.szReader (i.rgbAtr.take i.cbAtr)])
  else if hasFlag i.dwEventState SCARD_STATE_EMPTY
      && hasFlag (cached s.known i.szReader) SCARD_STATE_PRESENT
      && !hasFlag (cached s.known i.szReader) SCARD_STATE_MUTE then
    ({ s with change := true,
              known := assign i.szReader (clearFlag i.dwEventState SCARD_STATE_CHANGED) s.known },
     [Signal.cardRemoved i.szReader])
  else
    ({ s with known := assign i.szReader (clearFlag i.dwEventState SCARD_STATE_CHANGED) s.known },
     [])

/-- Loop of lines 277-315 over the vector. -/
def diffAll : Monitor → List SCARD_READERSTATE → Monitor × List Signal
  | s, [] => (s, [])
  | s, i :: rest => ((diffAll (diffEntry s i).1 rest).1, (diffEntry s i).2 ++ (diffAll (diffEntry s i).1 rest).2)

/-- Lines 316-320: the list-changed signal for card events and new readers. -/
def flushChange (s : Monitor) : Monitor × List Signal :=
  if s.change then ({ s with change := false }, [Signal.readerListChanged (getReaders s.known)])
  else (s, [])

/-- Condition of the `do ... while` (line 322); `continue` jumps here too. -/
def loopCondition (rv : LONG) : Next :=
  if rv = SCARD_S_SUCCESS ∨ rv = SCARD_E_TIMEOUT then Next.again else Next.leave

/-- Lines 267-320: the branch taken when the status wait returned timeout or
success. -/
def diffPhase (s : Monitor) (statuses : List SCARD_READERSTATE) : Monitor × List Signal :=
  let p := pnpEvent s statuses
  let d := diffAll p.1 p.2
  let f := flushChange d.1
  (f.1, d.2 ++ f.2)

/-- Lines 241-321 and the loop condition: the status query and what follows
from its result `wait`. -/
def waitPhase (mac : Bool) (s : Monitor) (wait : LONG × List Reported) :
    Monitor × List (TraceStep Signal) × Next :=
  if wait.1 = SCARD_E_UNKNOWN_READER then
    ({ afterQuery mac s with list := true },
     [TraceStep.call (Call.getStatusChange 600000 (statusVector mac s))],
     loopCondition wait.1)
  else if wait.1 = SCARD_E_TIMEOUT ∨ wait.1 = SCARD_S_SUCCESS then
    ((diffPhase (afterQuery mac s) (fill (statusVector mac s) wait.2)).1,
     TraceStep.call (Call.getStatusChange 600000 (statusVector mac s))
       :: (diffPhase (afterQuery mac s) (fill (statusVector mac s) wait.2)).2.map TraceStep.emit,
     loopCondition wait.1)
  else
    (afterQuery mac s,
     [TraceStep.call (Call.getStatusChange 600000 (statusVector mac s))],
     loopCondition wait.1)

/-- One pass through the body of the loop (lines 186-321) and the loop condition. -/
def cycle (mac : Bool) (s : Monitor) (env : CycleEnv) :
    Monitor × List (TraceStep Signal) × Next :=
  match (listPhase s env).2.2 with
  | some next => ((listPhase s env).1, (listPhase s env).2.1, next)
  | none =>
      ((waitPhase mac (listPhase s env).1 env.wait).1,
       (listPhase s env).2.1 ++ (waitPhase mac (listPhase s env).1 env.wait).2.1,
       (waitPhase mac (listPhase s env).1 env.wait).2.2)

/-- The loop of lines 185-322 against the results of the calls of successive
cycles; `again` at the end means that the loop is still running when the supplied
results are used up. -/
def loop (mac : Bool) : Monitor → List CycleEnv → Monitor × List (TraceStep Signal) × Next
  | s, [] => (s, [], Next.again)
  | s, env :: rest =>
      match (cycle mac s env).2.2 with
      | Next.again =>
          ((loop mac (cycle mac s env).1 rest).1,
           (cycle mac s env).2.1 ++ (loop mac (cycle mac s env).1 rest).2.1,
           (loop mac (cycle mac s env).1 rest).2.2)
      | next => ((cycle mac s env).1, (cycle mac s env).2.1, next)

/-- What the PC/SC calls of a whole run return. -/
structure RunEnv where
  establish : LONG
  probe : LONG × DWORD
  cycles : List CycleEnv
  release : LONG

/-- State at the first cycle (lines 169-183): `pnp` is cleared when the probe
timed out with the unknown bit, and keeps its initial value `pnp0` otherwise. -/
def startState (pnp0 : Bool) (probe : LONG × DWORD) : Monitor :=
  { pnp := if probe.1 = SCARD_E_TIMEOUT ∧ hasFlag probe.2 SCARD_STATE_UNKNOWN = true then false
           else pnp0,
    known := [], list := true, change := false, readernames := [], pnpstate := SCARD_STATE_UNAWARE }

/-- Member `QtPCSC::run` (lines 159-325).  `mac` stands for `Q_OS_MAC`, `pnp0` for
the initial value of the member `pnp`; `known` starts empty. -/
def run (mac pnp0 : Bool) (env : RunEnv) : Monitor × List (TraceStep Signal) × Next :=
  if env.establish ≠ SCARD_S_SUCCESS then
    (startState pnp0 (SCARD_S_SUCCESS, 0),
     [TraceStep.call Call.establishContext, TraceStep.emit (Signal.error "" env.establish)],
     Next.returned)
  else
    let r := loop mac (startState pnp0 env.probe) env.cycles
    let head := [TraceStep.call Call.establishContext,
      TraceStep.call (Call.getStatusChange 0 [queryEntry PNP_READER_NAME SCARD_STATE_UNAWARE])]
    match r.2.2 with
    | Next.leave => (r.1, head ++ r.2.1 ++ [TraceStep.call Call.releaseContext], Next.leave)
    | next => (r.1, head ++ r.2.1, next)

/-! ## Reader worker: `QPCSCReaderWorker` -/

/-- Signals emitted by `QPCSCReaderWorker`; the constant first argument of
`connected` is left out. -/
inductive WorkerSignal where
  | disconnected (code : LONG)
  | connected (protocol : String)
  | received (bytes : List Byte)
  deriving DecidableEq

/-- Build configuration: `perThreadContext` stands for
`Q_OS_LINUX || Q_OS_MAC`, `win32` for `_WIN32`. -/
structure Platform where
  perThreadContext : Bool
  win32 : Bool

/-- What the PC/SC calls of `connectCard` return; `connect` gives the status and
the active protocol. -/
structure ConnectEnv where
  establish : LONG
  connect : LONG × DWORD
  beginTransaction : LONG

/-- Member `QPCSCReaderWorker::connectCard` (lines 381-440), with the branch
`if (true)` of line 407 taken. -/
def connectCard (p : Platform) (env : ConnectEnv) (reader protocol : String) :
    List (TraceStep WorkerSignal) :=
  if p.perThreadContext && env.establish != SCARD_S_SUCCESS then
    [TraceStep.call Call.establishContext, TraceStep.emit (WorkerSignal.disconnected env.establish)]
  else
    let pre : List (TraceStep WorkerSignal) :=
      if p.perThreadContext then [TraceStep.call Call.establishContext] else []
    if protocol = "T=0" ∨ protocol = "T=1" ∨ protocol = "*" then
      let proto : DWORD :=
        if protocol = "T=0" then SCARD_PROTOCOL_T0
        else if protocol = "T=1" then SCARD_PROTOCOL_T1
        else SCARD_PROTOCOL_T0 ||| SCARD_PROTOCOL_T1
      if p.win32 then pre ++ [TraceStep.emit (WorkerSignal.disconnected SCARD_E_SHARING_VIOLATION)]
      else if env.connect.1 ≠ SCARD_S_SUCCESS then
        pre ++ [TraceStep.call (Call.connect reader SCARD_SHARE_SHARED proto),
                TraceStep.emit (WorkerSignal.disconnected env.connect.1)]
      else if env.beginTransaction ≠ SCARD_S_SUCCESS then
        pre ++ [TraceStep.call (Call.connect reader SCARD_SHARE_SHARED proto),
                TraceStep.call Call.beginTransaction,
                TraceStep.emit (WorkerSignal.disconnected env.beginTransaction)]
      else
        pre ++ [TraceStep.call (Call.connect reader SCARD_SHARE_SHARED proto),
                TraceStep.call Call.beginTransaction,
                TraceStep.emit (WorkerSignal.connected
                  (if env.connect.2 = SCARD_PROTOCOL_T0 then "T=0" else "T=1"))]
    else pre ++ [TraceStep.emit (WorkerSignal.disconnected SCARD_E_INVALID_PARAMETER)]

/-- What `SCardTransmit` returns: the status, the value left in `rlen` and the
content of the response buffer after the call. -/
structure TransmitEnv where
  err : LONG
  rlen : Nat
  response : List Byte

/-- Call `response.resize(n)` on a vector of bytes: cut, or filled up with zeros. -/
def resize (v : List Byte) (n : Nat) : List Byte :=
  v.take n ++ List.replicate (n - v.length) 0

/-- Member `QPCSCReaderWorker::transmit` (lines 450-464). -/
def transmit (env : TransmitEnv) (apdu : List Byte) : List (TraceStep WorkerSignal) :=
  if env.err ≠ SCARD_S_SUCCESS then
    [TraceStep.call (Call.transmit apdu 4096), TraceStep.call (Call.disconnect SCARD_RESET_CARD),
     TraceStep.emit (WorkerSignal.disconnected env.err)]
  else
    [TraceStep.call (Call.transmit apdu 4096),
     TraceStep.emit (WorkerSignal.received (resize env.response env.rlen))]

/-! ## Reading a trace -/

/-- Signals of a trace, in order. -/
def emitted {σ : Type} : List (TraceStep σ) → List σ
  | [] => []
  | TraceStep.emit s :: rest => s :: emitted rest
  | TraceStep.call _ :: rest => emitted rest

/-- PC/SC calls of a trace, in order. -/
def calls {σ : Type} : List (TraceStep σ) → List Call
  | [] => []
  | TraceStep.call c :: rest => c :: calls rest
  | TraceStep.emit _ :: rest => calls rest

/-! ## Concrete runs of the monitor and of the worker, for the scenarios -/

/-- Probe result "no plug-and-play support": timeout with the unknown bit. -/
def noPnpProbe : LONG × DWORD := (SCARD_E_TIMEOUT, SCARD_STATE_UNKNOWN ||| SCARD_STATE_CHANGED)

/-- Results of a cycle in which listing, if it takes place, finds the single
reader "R", and the status wait returns `wait`. -/
def listsR (wait : LONG × List Reported) : CycleEnv :=
  { listSize := (SCARD_S_SUCCESS, 3), listData := (SCARD_S_SUCCESS, ['R', NUL, NUL]), wait := wait }

/-- A mute card, then the reader unplugged: the first wait reports
PRESENT, MUTE, CHANGED for "R", the second UNKNOWN, UNAVAILABLE, CHANGED. -/
def muteThenUnplugged : RunEnv :=
  { establish := SCARD_S_SUCCESS, probe := noPnpProbe,
    cycles := [listsR (SCARD_S_SUCCESS,
                 [⟨SCARD_STATE_PRESENT ||| SCARD_STATE_MUTE ||| SCARD_STATE_CHANGED, 0, []⟩]),
               listsR (SCARD_S_SUCCESS,
                 [⟨SCARD_STATE_UNKNOWN ||| SCARD_STATE_UNAVAILABLE ||| SCARD_STATE_CHANGED, 0, []⟩])],
    release := SCARD_S_SUCCESS }

/-- The first status wait returns `SCARD_E_UNKNOWN_READER`; results for two more
cycles are at hand. -/
def unknownReaderRun : RunEnv :=
  { establish := SCARD_S_SUCCESS, probe := noPnpProbe,
    cycles := [listsR (SCARD_E_UNKNOWN_READER, []), listsR (SCARD_E_TIMEOUT, []),
               listsR (SCARD_E_TIMEOUT, [])],
    release := SCARD_S_SUCCESS }

/-- No plug-and-play support and two status waits that end by timeout. -/
def timeoutsRun : RunEnv :=
  { establish := SCARD_S_SUCCESS, probe := noPnpProbe,
    cycles := [listsR (SCARD_E_TIMEOUT, []), listsR (SCARD_E_TIMEOUT, [])],
    release := SCARD_S_SUCCESS }

/-- The first status wait fails with `SCARD_E_NO_SERVICE`. -/
def failedWaitRun : RunEnv :=
  { establish := SCARD_S_SUCCESS, probe := noPnpProbe,
    cycles := [listsR (SCARD_E_NO_SERVICE, [])],
    release := SCARD_S_SUCCESS }

/-- Monitor that knows the readers "A", "B" and "C", all empty, and is about to
list again. -/
def threeReaders : Monitor :=
  { pnp := false,
    known := [("A", SCARD_STATE_EMPTY), ("B", SCARD_STATE_EMPTY), ("C", SCARD_STATE_EMPTY)],
    list := true, change := false, readernames := ["A", "B", "C"],
    pnpstate := SCARD_STATE_UNAWARE }

/-- Results of a cycle in which listing finds only the reader "C" and the wait
times out. -/
def listsC : CycleEnv :=
  { listSize := (SCARD_S_SUCCESS, 3), listData := (SCARD_S_SUCCESS, ['C', NUL, NUL]),
    wait := (SCARD_E_TIMEOUT, []) }

/-- Monitor whose cache holds reader "R" with a card present. -/
def cardInR : Monitor :=
  { pnp := false, known := [("R", SCARD_STATE_PRESENT)], list := false, change := false,
    readernames := ["R"], pnpstate := SCARD_STATE_UNAWARE }

/-- Results of two cycles that lead to `threeReaders`: "A", "B" and "C" are listed
and reported empty, then "A" and "B" are reported unknown. -/
def unplugTwo : List CycleEnv :=
  [{ listSize := (SCARD_S_SUCCESS, 7),
     listData := (SCARD_S_SUCCESS, ['A', NUL, 'B', NUL, 'C', NUL, NUL]),
     wait := (SCARD_S_SUCCESS,
       [⟨SCARD_STATE_EMPTY ||| SCARD_STATE_CHANGED, 0, []⟩,
        ⟨SCARD_STATE_EMPTY ||| SCARD_STATE_CHANGED, 0, []⟩,
        ⟨SCARD_STATE_EMPTY ||| SCARD_STATE_CHANGED, 0, []⟩]) },
   { listSize := (SCARD_S_SUCCESS, 7),
     listData := (SCARD_S_SUCCESS, ['A', NUL, 'B', NUL, 'C', NUL, NUL]),
     wait := (SCARD_S_SUCCESS,
       [⟨SCARD_STATE_UNKNOWN ||| SCARD_STATE_CHANGED, 0, []⟩,
        ⟨SCARD_STATE_UNKNOWN ||| SCARD_STATE_CHANGED, 0, []⟩]) }]

/-- Results of a cycle that leads to `cardInR`: "R" is listed and reported with a
card present. -/
def insertInR : List CycleEnv :=
  [listsR (SCARD_S_SUCCESS, [⟨SCARD_STATE_PRESENT ||| SCARD_STATE_CHANGED, 0, []⟩])]

/-- Number of list-changed signals. -/
def listChangedCount : List Signal → Nat
  | [] => 0
  | Signal.readerListChanged _ :: rest => listChangedCount rest + 1
  | _ :: rest => listChangedCount rest

/-- Number of reader-removed signals. -/
def readerRemovedCount : List Signal → Nat
  | [] => 0
  | Signal.readerRemoved _ :: rest => readerRemovedCount rest + 1
  | _ :: rest => readerRemovedCount rest

/-- Number of error signals. -/
def errorCount : List Signal → Nat
  | [] => 0
  | Signal.error _ _ :: rest => errorCount rest + 1
  | _ :: rest => errorCount rest

/-- No state stored in the cache has the CHANGED flag. -/
def noChangedFlag (known : Known) : Prop :=
  ∀ kv ∈ known, hasFlag kv.2 SCARD_STATE_CHANGED = false

/-! ## Specification of the name extraction -/

/-- The non-empty NUL-delimited segments of a buffer, in the words of the claim:
the buffer is split at every NUL and the empty pieces are dropped.  It is stated
with the library function `List.splitOn`, independently of the loop of lines
206-213. -/
def nulSegments (readers : List Char) : List (List Char) :=
  (readers.splitOn NUL).filter (fun seg => !seg.isEmpty)

/-- The buffer that lists the readers "R" and "S": each name is followed by a
NUL and one more NUL ends the list. -/
def buffer_RS : List Char := ['R', NUL, 'S', NUL, NUL]

/-! ## Lemmas on maps and on `write` -/

theorem lookup_cons_ite (k1 a : String) (b : QVariant) (l : List (String × QVariant)) :
    List.lookup k1 ((a, b) :: l) = if k1 = a then some b else List.lookup k1 l := by
  by_cases h : k1 = a
  · subst h
    simp [List.lookup]
  · have hb : (k1 == a) = false := by simpa using h
    simp [List.lookup, hb, h]

theorem lookup_insertEntry (k : String) (v : QVariant) (l : List (String × QVariant)) (k1 : String) :
    (insertEntry k v l).lookup k1 = if k1 = k then some v else l.lookup k1 := by
  induction l with
  | nil =>
      simp only [insertEntry]
      rw [lookup_cons_ite]
  | cons p rest ih =>
      obtain ⟨a, b⟩ := p
      simp only [insertEntry]
      split_ifs with h1 h2 h3 h4 h5
      all_goals simp only [lookup_cons_ite, ih]
      all_goals split_ifs <;> simp_all

theorem find_insert (m : QVariantMap) (k : String) (v : QVariant) (k1 : String) :
    (m.insert k v).find k1 = if k1 = k then some v else m.find k1 := by
  simp [QVariantMap.insert, QVariantMap.find, lookup_insertEntry]

theorem contains_eq_find (m : QVariantMap) (k : String) :
    m.contains k = (m.find k).isSome := rfl

/-- Response map that `write` encodes: `result` keeps an explicit value and
defaults to "ok". -/
theorem write_find_result (d : Deps) (resp : QVariantMap) (nonce : String) :
    (write d resp nonce).resp.find "result"
      = some ((resp.find "result").getD (QJsonValue.string "ok")) := by
  unfold write
  by_cases hn : nonce = ""
  · cases hr : resp.find "result" <;> simp [contains_eq_find, find_insert, hn, hr]
  · cases hr : resp.find "result" <;> simp [contains_eq_find, find_insert, hn, hr]

theorem write_find_id (d : Deps) (resp : QVariantMap) (nonce : String) :
    (write d resp nonce).resp.find "id"
      = if nonce = "" then resp.find "id" else some (QJsonValue.string nonce) := by
  unfold write
  by_cases hn : nonce = ""
  · cases hr : resp.find "result" <;> simp [contains_eq_find, find_insert, hn, hr]
  · cases hr : resp.find "result" <;> simp [contains_eq_find, find_insert, hn, hr]

theorem write_find_other (d : Deps) (resp : QVariantMap) (nonce : String) (k : String)
    (hid : k ≠ "id") (hres : k ≠ "result") :
    (write d resp nonce).resp.find k = resp.find k := by
  unfold write
  by_cases hn : nonce = ""
  · cases hr : resp.find "result" <;> simp [contains_eq_find, find_insert, hn, hr, hid, hres]
  · cases hr : resp.find "result" <;> simp [contains_eq_find, find_insert, hn, hr, hid, hres]

theorem ofPairs_result_find (s : String) :
    (QVariantMap.ofPairs [("result", QJsonValue.string s)]).find "result"
      = some (QJsonValue.string s) := by
  simp [QVariantMap.ofPairs, find_insert]

theorem dispatch_effects (d : Deps) (self : QtHost) (json : QJsonObject) :
    (dispatch d self json).2 = [] ∨ ∃ h, (dispatch d self json).2 = [Effect.handler h] := by
  unfold dispatch
  simp only []
  split_ifs <;> simp

theorem outputs_append (a b : List Effect) : outputs (a ++ b) = outputs a ++ outputs b := by
  induction a with
  | nil => rfl
  | cons e es ih => cases e <;> simp [outputs, ih]

theorem shutdowns_append (a b : List Effect) : shutdowns (a ++ b) = shutdowns a ++ shutdowns b := by
  induction a with
  | nil => rfl
  | cons e es ih => cases e <;> simp [shutdowns, ih]

theorem handlersRun_append (a b : List Effect) :
    handlersRun (a ++ b) = handlersRun a ++ handlersRun b := by
  induction a with
  | nil => rfl
  | cons e es ih => cases e <;> simp [handlersRun, ih]

theorem isEmpty_of_contains (json : QJsonObject) (k : String) (h : json.contains k = true) :
    json.isEmpty = false := by
  unfold QJsonObject.contains at h
  unfold QJsonObject.isEmpty
  cases hf : json.fields with
  | nil => rw [hf] at h; simp [List.lookup] at h
  | cons a l => rfl

theorem outputs_dispatch (d : Deps) (self : QtHost) (json : QJsonObject) :
    outputs (dispatch d self json).2 = [] := by
  rcases dispatch_effects d self json with h | ⟨h, hh⟩
  · rw [h]; rfl
  · rw [hh]; rfl

theorem shutdowns_dispatch (d : Deps) (self : QtHost) (json : QJsonObject) :
    shutdowns (dispatch d self json).2 = [] := by
  rcases dispatch_effects d self json with h | ⟨h, hh⟩
  · rw [h]; rfl
  · rw [hh]; rfl

/-! ## The branches of `processMessage` -/

/-- Readings of the effect list of a rejecting branch. -/
theorem rejected_shape (d : Deps) (resp : QVariantMap) (json : QJsonObject) (s : String)
    (hres : resp.find "result" = some (QJsonValue.string s)) :
    (outputs (reject d resp json)).map (fun o => o.resp.find "result") = [some (QJsonValue.string s)]
      ∧ shutdowns (reject d resp json) = [EXIT_FAILURE]
      ∧ handlersRun (reject d resp json) = [] := by
  simp [reject, outputs, shutdowns, handlersRun, write_find_result, hres]

/-- Lines 110-114. -/
theorem processMessage_empty (d : Deps) (self : QtHost) (json : QJsonObject)
    (hempty : json.isEmpty = true) :
    processMessage d self json
      = (self, reject d (QVariantMap.ofPairs [("result", QJsonValue.string "invalid_argument"),
                                              ("version", QJsonValue.string VERSION)]) json) := by
  unfold processMessage
  simp [hempty]

/-- Lines 116-120. -/
theorem processMessage_missing (d : Deps) (self : QtHost) (json : QJsonObject)
    (hne : json.isEmpty = false)
    (hmissing : json.contains "type" = false ∨ json.contains "id" = false
                  ∨ json.contains "origin" = false) :
    processMessage d self json
      = (self, reject d (QVariantMap.ofPairs
            [("result", QJsonValue.string "invalid_argument")]) json) := by
  unfold processMessage
  rcases hmissing with h | h | h <;> simp [hne, h]

/-- Lines 137-141. -/
theorem processMessage_insecure (d : Deps) (self : QtHost) (json : QJsonObject)
    (hunset : self.origin = "")
    (htype : json.contains "type" = true) (hid : json.contains "id" = true)
    (horigin : json.contains "origin" = true)
    (hs : ¬ secure (d.url (json.value "origin").toString)) :
    processMessage d self json
      = (self, reject d (QVariantMap.ofPairs [("result", QJsonValue.string "not_allowed")]) json) := by
  have hne := isEmpty_of_contains json "type" htype
  unfold processMessage
  unfold secure at hs
  simp only [hne, htype, hid, horigin, hunset, hs]
  simp

/-- Lines 155-160. -/
theorem processMessage_mismatch (d : Deps) (self : QtHost) (json : QJsonObject)
    (hpinned : self.origin ≠ "")
    (htype : json.contains "type" = true) (hid : json.contains "id" = true)
    (horigin : json.contains "origin" = true)
    (hdiff : (json.value "origin").toString ≠ self.origin) :
    processMessage d self json
      = (self, reject d (QVariantMap.ofPairs
            [("result", QJsonValue.string "invalid_argument")]) json) := by
  have hne := isEmpty_of_contains json "type" htype
  unfold processMessage
  simp [hne, htype, hid, horigin, hpinned, Ne.symm hdiff]

/-- Readings of the effects of `finish`. -/
theorem finish_shape (d : Deps) (resp : Option QVariantMap) (nonce : String) :
    outputs (finish d resp nonce) = responses d resp nonce
      ∧ shutdowns (finish d resp nonce) = []
      ∧ handlersRun (finish d resp nonce) = []
      ∧ escapes (finish d resp nonce) = (if resp.isNone then 1 else 0) := by
  cases resp with
  | none => exact ⟨rfl, rfl, rfl, rfl⟩
  | some r => exact ⟨rfl, rfl, rfl, rfl⟩

/-- Lines 121-136, 142-154 and 162-186: a validated message reaches the command
dispatch, and the final `write` unless an exception escapes. -/
theorem processMessage_validated (d : Deps) (self : QtHost) (json : QJsonObject)
    (hv : validated d self json) :
    processMessage d self json
      = (hostAtDispatch d self json,
         (if self.origin = "" then [Effect.loadTranslation (json.value "lang").toString] else [])
           ++ (dispatch d (hostAtDispatch d self json) json).2
           ++ finish d (dispatch d (hostAtDispatch d self json) json).1
                 (json.value "id").toString) := by
  obtain ⟨htype, hid, horigin, ho⟩ := hv
  have hne := isEmpty_of_contains json "type" htype
  unfold processMessage hostAtDispatch
  by_cases hunset : self.origin = ""
  · rw [if_pos hunset] at ho
    unfold secure at ho
    simp only [hne, htype, hid, horigin, hunset, ho]
    simp
  · rw [if_neg hunset] at ho
    simp [hne, htype, hid, horigin, hunset, ← ho]

/-- A message that is not validated is answered by one of the rejecting
branches, which leave the host as it was. -/
theorem processMessage_not_validated (d : Deps) (self : QtHost) (json : QJsonObject)
    (hv : ¬ validated d self json) :
    ∃ resp s, processMessage d self json = (self, reject d resp json)
      ∧ resp.find "result" = some (QJsonValue.string s)
      ∧ (s = "invalid_argument" ∨ s = "not_allowed") := by
  by_cases hempty : json.isEmpty = true
  · exact ⟨_, "invalid_argument", processMessage_empty d self json hempty,
      by simp [QVariantMap.ofPairs, find_insert], Or.inl rfl⟩
  · simp only [Bool.not_eq_true] at hempty
    by_cases htype : json.contains "type" = true
    · by_cases hid : json.contains "id" = true
      · by_cases horigin : json.contains "origin" = true
        · by_cases hunset : self.origin = ""
          · have hs : ¬ secure (d.url (json.value "origin").toString) := by
              intro hs
              exact hv ⟨htype, hid, horigin, by rw [if_pos hunset]; exact hs⟩
            exact ⟨_, "not_allowed", processMessage_insecure d self json hunset htype hid horigin hs,
              ofPairs_result_find _, Or.inr rfl⟩
          · have hdiff : (json.value "origin").toString ≠ self.origin := by
              intro h
              exact hv ⟨htype, hid, horigin, by rw [if_neg hunset]; exact h.symm⟩
            exact ⟨_, "invalid_argument",
              processMessage_mismatch d self json hunset htype hid horigin hdiff,
              ofPairs_result_find _, Or.inl rfl⟩
        · simp only [Bool.not_eq_true] at horigin
          exact ⟨_, "invalid_argument",
            processMessage_missing d self json hempty (Or.inr (Or.inr horigin)),
            ofPairs_result_find _, Or.inl rfl⟩
      · simp only [Bool.not_eq_true] at hid
        exact ⟨_, "invalid_argument",
          processMessage_missing d self json hempty (Or.inr (Or.inl hid)),
          ofPairs_result_find _, Or.inl rfl⟩
    · simp only [Bool.not_eq_true] at htype
      exact ⟨_, "invalid_argument",
        processMessage_missing d self json hempty (Or.inl htype),
        ofPairs_result_find _, Or.inl rfl⟩

/-- Effects of a validated message: the response of line 186 when control gets
there, no shutdown request. -/
theorem validated_effects (d : Deps) (self : QtHost) (json : QJsonObject)
    (hv : validated d self json) :
    outputs (processMessage d self json).2
        = responses d (dispatch d (hostAtDispatch d self json) json).1
            (json.value "id").toString
      ∧ shutdowns (processMessage d self json).2 = []
      ∧ handlersRun (processMessage d self json).2
          = handlersRun (dispatch d (hostAtDispatch d self json) json).2 := by
  obtain ⟨f1, f2, f3, -⟩ := finish_shape d (dispatch d (hostAtDispatch d self json) json).1
    (json.value "id").toString
  rw [processMessage_validated d self json hv]
  by_cases hunset : self.origin = ""
  · simp [hunset, outputs, shutdowns, handlersRun, outputs_append, shutdowns_append,
      handlersRun_append, outputs_dispatch, shutdowns_dispatch, f1, f2, f3]
  · simp [hunset, outputs, shutdowns, handlersRun, outputs_append, shutdowns_append,
      handlersRun_append, outputs_dispatch, shutdowns_dispatch, f1, f2, f3]

/-- A message is validated exactly when handling it requests no shutdown. -/
theorem validated_iff_no_shutdown (d : Deps) (self : QtHost) (json : QJsonObject) :
    validated d self json ↔ shutdowns (processMessage d self json).2 = [] := by
  constructor
  · intro hv
    exact (validated_effects d self json hv).2.1
  · intro h
    by_contra hv
    obtain ⟨resp, s, hpm, -, -⟩ := processMessage_not_validated d self json hv
    rw [hpm] at h
    simp [reject, shutdowns] at h

/-- Once the origin is non-empty no branch of `processMessage` assigns it. -/
theorem processMessage_keeps_pinned (d : Deps) (self : QtHost) (json : QJsonObject)
    (hpinned : self.origin ≠ "") : (processMessage d self json).1 = self := by
  unfold processMessage
  simp only [hpinned, if_false]
  split_ifs <;> rfl

theorem processAll_keeps_pinned (d : Deps) (later : List QJsonObject) (self : QtHost)
    (hpinned : self.origin ≠ "") : processAll d self later = self := by
  induction later with
  | nil => rfl
  | cons json rest ih =>
      simp only [processAll]
      rw [processMessage_keeps_pinned d self json hpinned]
      exact ih

/-! ## Origin pinning (C1 - C4) -/

/-- Claim C1: with an origin pinned, a message carrying type, id and origin whose
origin string differs from the pinned one gets exactly one response, with result
"invalid_argument", followed by a shutdown request with the failure status; the
host state is untouched and no handler runs. -/
theorem processMessage_origin_mismatch (d : Deps) (self : QtHost) (json : QJsonObject)
    (hpinned : self.origin ≠ "")
    (htype : json.contains "type" = true) (hid : json.contains "id" = true)
    (horigin : json.contains "origin" = true)
    (hdiff : (json.value "origin").toString ≠ self.origin) :
    processMessage d self json
        = (self, [Effect.write (write d (QVariantMap.ofPairs
                      [("result", QJsonValue.string "invalid_argument")]) (json.value "id").toString),
                  Effect.shutdown EXIT_FAILURE])
      ∧ (outputs (processMessage d self json).2).map (fun o => o.resp.find "result")
          = [some (QJsonValue.string "invalid_argument")]
      ∧ shutdowns (processMessage d self json).2 = [EXIT_FAILURE]
      ∧ EXIT_FAILURE ≠ 0
      ∧ handlersRun (processMessage d self json).2 = [] := by
  have hs := rejected_shape d _ json "invalid_argument" (ofPairs_result_find "invalid_argument")
  rw [processMessage_mismatch d self json hpinned htype hid horigin hdiff]
  exact ⟨rfl, hs.1, hs.2.1, by decide, hs.2.2⟩

/-- Claim C1, at a concrete input: the host is pinned to https://example.com
and a SIGN message claims another origin. -/
theorem processMessage_origin_mismatch_witness :
    (outputs (processMessage demoDeps pinnedHost
        (message "2" "SIGN" "https://other.example")).2).map (fun o => o.resp.find "result")
      = [some (QJsonValue.string "invalid_argument")]
    ∧ shutdowns (processMessage demoDeps pinnedHost
        (message "2" "SIGN" "https://other.example")).2 = [EXIT_FAILURE]
    ∧ handlersRun (processMessage demoDeps pinnedHost
        (message "2" "SIGN" "https://other.example")).2 = [] :=
  have h := processMessage_origin_mismatch demoDeps pinnedHost
    (message "2" "SIGN" "https://other.example")
    (by decide) (by decide) (by decide) (by decide) (by decide)
  ⟨h.2.1, h.2.2.1, h.2.2.2.2⟩

/-- Claim C2: for a first message (no origin pinned) that carries type, id and
origin, the origin is stored without a shutdown request exactly when its scheme
is https or file or its host is localhost; otherwise the only effects are one
response with result "not_allowed" and a shutdown request with the failure
status, the origin stays unset and no handler runs. -/
theorem processMessage_first_origin (d : Deps) (self : QtHost) (json : QJsonObject)
    (hunset : self.origin = "")
    (htype : json.contains "type" = true) (hid : json.contains "id" = true)
    (horigin : json.contains "origin" = true) :
    (secure (d.url (json.value "origin").toString) ↔
        ((processMessage d self json).1.origin = (json.value "origin").toString
          ∧ shutdowns (processMessage d self json).2 = []))
      ∧ (¬ secure (d.url (json.value "origin").toString) →
          processMessage d self json
              = (self, [Effect.write (write d (QVariantMap.ofPairs
                            [("result", QJsonValue.string "not_allowed")]) (json.value "id").toString),
                        Effect.shutdown EXIT_FAILURE])
            ∧ (outputs (processMessage d self json).2).map (fun o => o.resp.find "result")
                = [some (QJsonValue.string "not_allowed")]
            ∧ (processMessage d self json).1.origin = ""
            ∧ handlersRun (processMessage d self json).2 = []
            ∧ shutdowns (processMessage d self json).2 = [EXIT_FAILURE]
            ∧ EXIT_FAILURE ≠ 0) := by
  have hiff : secure (d.url (json.value "origin").toString) ↔ validated d self json := by
    unfold validated
    rw [if_pos hunset]
    exact ⟨fun h => ⟨htype, hid, horigin, h⟩, fun h => h.2.2.2⟩
  refine ⟨⟨fun hs => ?_, fun h => ?_⟩, fun hs => ?_⟩
  · have hv := hiff.mp hs
    refine ⟨?_, (validated_effects d self json hv).2.1⟩
    rw [processMessage_validated d self json hv]
    simp [hostAtDispatch, hunset, pinOrigin]
  · exact hiff.mpr ((validated_iff_no_shutdown d self json).mpr h.2)
  · have hr := rejected_shape d _ json "not_allowed" (ofPairs_result_find "not_allowed")
    rw [processMessage_insecure d self json hunset htype hid horigin hs]
    exact ⟨rfl, hr.1, hunset, hr.2.2, hr.2.1, by decide⟩

/-- Claim C2, at the input of the scenario: first message with origin
http://example.com. -/
theorem processMessage_first_origin_witness :
    ¬ secure (demoDeps.url "http://example.com")
    ∧ (outputs (processMessage demoDeps QtHost.initial
        (message "1" "VERSION" "http://example.com")).2).map (fun o => o.resp.entries)
      = [[("id", QJsonValue.string "1"), ("result", QJsonValue.string "not_allowed")]]
    ∧ (processMessage demoDeps QtHost.initial
        (message "1" "VERSION" "http://example.com")).1.origin = ""
    ∧ shutdowns (processMessage demoDeps QtHost.initial
        (message "1" "VERSION" "http://example.com")).2 = [EXIT_FAILURE] :=
  have h := (processMessage_first_origin demoDeps QtHost.initial
    (message "1" "VERSION" "http://example.com")
    (by decide) (by decide) (by decide) (by decide)).2 (by decide)
  ⟨by decide, by rw [h.1]; rfl, h.2.2.1, h.2.2.2.2.1⟩

/-- Claim C3: provided the URL parser finds neither an accepted scheme nor the
host localhost in the empty string, after any message that is handled without
a shutdown request the stored origin is non-empty; it is the old origin if one
was pinned and the message's origin otherwise; and it is still the stored
origin after any further list of messages. -/
theorem origin_set_once (d : Deps) (hurl : ¬ secure (d.url "")) (self : QtHost)
    (json : QJsonObject) (later : List QJsonObject)
    (haccepted : shutdowns (processMessage d self json).2 = []) :
    (processMessage d self json).1.origin ≠ ""
      ∧ (self.origin ≠ "" → (processMessage d self json).1.origin = self.origin)
      ∧ (self.origin = "" →
          (processMessage d self json).1.origin = (json.value "origin").toString)
      ∧ (processAll d (processMessage d self json).1 later).origin
          = (processMessage d self json).1.origin := by
  have hv := (validated_iff_no_shutdown d self json).mpr haccepted
  have hfirst : self.origin = "" →
      (processMessage d self json).1.origin = (json.value "origin").toString := by
    intro hunset
    rw [processMessage_validated d self json hv]
    simp [hostAtDispatch, hunset, pinOrigin]
  have hne : (processMessage d self json).1.origin ≠ "" := by
    by_cases hunset : self.origin = ""
    · rw [hfirst hunset]
      intro hempty
      have hs := hv.2.2.2
      rw [if_pos hunset, hempty] at hs
      exact hurl hs
    · rw [processMessage_keeps_pinned d self json hunset]
      exact hunset
  exact ⟨hne, fun hp => by rw [processMessage_keeps_pinned d self json hp], hfirst,
    by rw [processAll_keeps_pinned d later _ hne]⟩

/-- Claim C3, at a concrete run: the first message pins https://example.com;
a message from another origin and a second message from the first origin
follow. -/
theorem origin_set_once_witness :
    (processMessage demoDeps QtHost.initial
        (message "1" "VERSION" "https://example.com")).1.origin = "https://example.com"
    ∧ (processAll demoDeps (processMessage demoDeps QtHost.initial
          (message "1" "VERSION" "https://example.com")).1
        [message "2" "SIGN" "https://other.example",
         message "3" "CERT" "https://example.com"]).origin
      = (processMessage demoDeps QtHost.initial
          (message "1" "VERSION" "https://example.com")).1.origin :=
  have h := origin_set_once demoDeps (by decide) QtHost.initial
    (message "1" "VERSION" "https://example.com")
    [message "2" "SIGN" "https://other.example", message "3" "CERT" "https://example.com"]
    (by rfl)
  ⟨h.2.2.1 rfl, h.2.2.2⟩

/-- Claim C4: a non-empty message that lacks type, id or origin is answered with
result "invalid_argument" (and a shutdown request) before the origin is looked
at: the host state, pinned origin included, is unchanged and no handler runs. -/
theorem processMessage_missing_field (d : Deps) (self : QtHost) (json : QJsonObject)
    (hne : json.isEmpty = false)
    (hmissing : json.contains "type" = false ∨ json.contains "id" = false
                  ∨ json.contains "origin" = false) :
    processMessage d self json
        = (self, [Effect.write (write d (QVariantMap.ofPairs
                      [("result", QJsonValue.string "invalid_argument")]) (json.value "id").toString),
                  Effect.shutdown EXIT_FAILURE])
      ∧ (outputs (processMessage d self json).2).map (fun o => o.resp.find "result")
          = [some (QJsonValue.string "invalid_argument")]
      ∧ (processMessage d self json).1.origin = self.origin
      ∧ handlersRun (processMessage d self json).2 = [] := by
  have hs := rejected_shape d _ json "invalid_argument" (ofPairs_result_find "invalid_argument")
  rw [processMessage_missing d self json hne hmissing]
  exact ⟨rfl, hs.1, rfl, hs.2.2⟩

/-- Claim C4, at a concrete input: a message with id and type but no origin,
sent to a host that is already pinned. -/
theorem processMessage_missing_field_witness :
    (outputs (processMessage demoDeps pinnedHost
        ⟨[("id", QJsonValue.string "5"), ("type", QJsonValue.string "SIGN")]⟩).2).map
          (fun o => o.resp.entries)
      = [[("id", QJsonValue.string "5"), ("result", QJsonValue.string "invalid_argument")]]
    ∧ (processMessage demoDeps pinnedHost
        ⟨[("id", QJsonValue.string "5"), ("type", QJsonValue.string "SIGN")]⟩).1.origin
      = "https://example.com"
    ∧ handlersRun (processMessage demoDeps pinnedHost
        ⟨[("id", QJsonValue.string "5"), ("type", QJsonValue.string "SIGN")]⟩).2 = [] :=
  have h := processMessage_missing_field demoDeps pinnedHost
    ⟨[("id", QJsonValue.string "5"), ("type", QJsonValue.string "SIGN")]⟩
    (by decide) (Or.inr (Or.inr (by decide)))
  ⟨by rw [h.1]; rfl, h.2.2.1, h.2.2.2⟩

/-! ## Responses (C5 - C8) -/

theorem escapes_append (a b : List Effect) : escapes (a ++ b) = escapes a + escapes b := by
  induction a with
  | nil => simp [escapes]
  | cons e es ih =>
      cases e
      all_goals simp [escapes, ih]
      all_goals omega

theorem escapes_dispatch (d : Deps) (self : QtHost) (json : QJsonObject) :
    escapes (dispatch d self json).2 = 0 := by
  rcases dispatch_effects d self json with h | ⟨h, hh⟩
  · rw [h]; rfl
  · rw [hh]; rfl

/-- One call of `processMessage` either writes exactly one response or lets
exactly one exception escape, never both and never neither. -/
theorem response_or_escape (d : Deps) (self : QtHost) (json : QJsonObject) :
    (outputs (processMessage d self json).2).length + escapes (processMessage d self json).2
      = 1 := by
  by_cases hv : validated d self json
  · obtain ⟨f1, -, -, f4⟩ := finish_shape d (dispatch d (hostAtDispatch d self json) json).1
      (json.value "id").toString
    rw [(validated_effects d self json hv).1, processMessage_validated d self json hv]
    simp only [escapes_append, escapes_dispatch, f4]
    cases hr : (dispatch d (hostAtDispatch d self json) json).1 with
    | none => by_cases hunset : self.origin = "" <;> simp [hunset, responses, escapes]
    | some r => by_cases hunset : self.origin = "" <;> simp [hunset, responses, escapes]
  · obtain ⟨resp, s, hpm, -, -⟩ := processMessage_not_validated d self json hv
    rw [hpm]
    rfl

/-- Claim C6: in the response map that `write` encodes, "result" is the explicit
result when the map had one and "ok" otherwise, "id" is the nonce whenever the
nonce is non-empty, and every other field is as in the map passed in. -/
theorem write_fills_id_and_result (d : Deps) (resp : QVariantMap) (nonce : String) :
    (∀ v, resp.find "result" = some v → (write d resp nonce).resp.find "result" = some v)
      ∧ (resp.find "result" = none →
          (write d resp nonce).resp.find "result" = some (QJsonValue.string "ok"))
      ∧ (nonce ≠ "" → (write d resp nonce).resp.find "id" = some (QJsonValue.string nonce))
      ∧ (∀ k, k ≠ "id" → k ≠ "result" → (write d resp nonce).resp.find k = resp.find k) := by
  refine ⟨fun v hv => ?_, fun hnone => ?_, fun hn => ?_, fun k hid hres => ?_⟩
  · rw [write_find_result, hv]; rfl
  · rw [write_find_result, hnone]; rfl
  · rw [write_find_id, if_neg hn]
  · exact write_find_other d resp nonce k hid hres

/-- Claim C6, at the input of the scenario: id "42" and a map without an
explicit result. -/
theorem write_fills_id_and_result_witness :
    (write demoDeps (QVariantMap.ofPairs [("version", QJsonValue.string VERSION)]) "42").resp.find "id"
        = some (QJsonValue.string "42")
      ∧ (write demoDeps (QVariantMap.ofPairs [("version", QJsonValue.string VERSION)]) "42").resp.find
          "result" = some (QJsonValue.string "ok")
      ∧ (write demoDeps (QVariantMap.ofPairs [("version", QJsonValue.string VERSION)]) "42").resp.find
          "version" = some (QJsonValue.string "1.0.0.0") :=
  have h := write_fills_id_and_result demoDeps
    (QVariantMap.ofPairs [("version", QJsonValue.string VERSION)]) "42"
  ⟨h.2.2.1 (by decide), h.2.1 rfl, (h.2.2.2 "version" (by decide) (by decide)).trans rfl⟩

/-! ## Lemmas on the dispatch and on the encoded fields -/

theorem write_result_entries (d : Deps) (s nonce : String) :
    (write d (QVariantMap.ofPairs [("result", QJsonValue.string s)]) nonce).resp.entries
      = if nonce = "" then [("result", QJsonValue.string s)]
        else [("id", QJsonValue.string nonce), ("result", QJsonValue.string s)] := by
  by_cases hn : nonce = ""
  · subst hn
    rfl
  · have h1 : (QVariantMap.ofPairs [("result", QJsonValue.string s)]).insert "id"
          (QJsonValue.string nonce)
        = ⟨[("id", QJsonValue.string nonce), ("result", QJsonValue.string s)]⟩ := rfl
    unfold write
    simp only [hn, ne_eq, not_false_eq_true, if_true, h1, if_neg]
    rfl

theorem dispatch_sign (d : Deps) (self : QtHost) (json : QJsonObject)
    (ht : (json.value "type").toString = "SIGN") :
    dispatch d self json = (caught (d.sign self json), [Effect.handler Handler.sign]) := by
  unfold dispatch
  simp [ht]

theorem dispatch_cert (d : Deps) (self : QtHost) (json : QJsonObject)
    (ht : (json.value "type").toString = "CERT") :
    dispatch d self json = (caught (d.select self json), [Effect.handler Handler.select]) := by
  unfold dispatch
  simp [ht]

theorem dispatch_auth (d : Deps) (self : QtHost) (json : QJsonObject)
    (ht : (json.value "type").toString = "AUTH") :
    dispatch d self json
      = (caught (d.authenticate self json), [Effect.handler Handler.authenticate]) := by
  unfold dispatch
  simp [ht]

theorem dispatch_unrecognized (d : Deps) (self : QtHost) (json : QJsonObject)
    (ht : unrecognized (json.value "type").toString) :
    dispatch d self json
      = (some (QVariantMap.ofPairs [("result", QJsonValue.string "invalid_argument")]), []) := by
  obtain ⟨h1, h2, h3, h4⟩ := ht
  unfold dispatch
  simp [h1, h2, h3, h4]

/-- Claim C8, as stated, fails: a validated CERT message whose id is the number 7,
with the user cancelling the certificate selection, is answered by a response
that has the field result only and does not carry an id. -/
theorem cancel_response_without_id :
    validated demoDeps pinnedHost (messageNumericId "CERT" "https://example.com")
      ∧ (messageNumericId "CERT" "https://example.com").contains "id" = true
      ∧ demoDeps.select pinnedHost (messageNumericId "CERT" "https://example.com")
          = HandlerResult.userCanceled
      ∧ (outputs (processMessage demoDeps pinnedHost
            (messageNumericId "CERT" "https://example.com")).2).map (fun o => o.resp.entries)
          = [[("result", QJsonValue.string "user_cancel")]] :=
  ⟨by decide, rfl, rfl, rfl⟩

/-- Claim C8, amended: when the handler selected by a validated message ends in
`r`, one of the three errors that `processMessage` catches, the response has
result "user_cancel" for a user cancellation, "technical_error" for a runtime
error and "invalid_argument" for an invalid-argument error (so a cancellation
is not reported as a technical error); it consists of that result alone,
preceded by the message's id when that id is a non-empty string, and it has no
id field when the id is empty or not a string.  Whenever a response is written
for a non-empty id, also for a returned map, it carries that id. -/
theorem handler_failure_result (d : Deps) (self : QtHost) (json : QJsonObject)
    (hv : validated d self json) (r : HandlerResult)
    (hran : ((json.value "type").toString = "SIGN"
              ∧ d.sign (hostAtDispatch d self json) json = r)
          ∨ ((json.value "type").toString = "CERT"
              ∧ d.select (hostAtDispatch d self json) json = r)
          ∨ ((json.value "type").toString = "AUTH"
              ∧ d.authenticate (hostAtDispatch d self json) json = r)) :
    (r = HandlerResult.userCanceled →
        (outputs (processMessage d self json).2).map (fun o => o.resp.find "result")
            = [some (QJsonValue.string "user_cancel")]
          ∧ (outputs (processMessage d self json).2).map (fun o => o.resp.find "result")
            ≠ [some (QJsonValue.string "technical_error")]
          ∧ (outputs (processMessage d self json).2).map (fun o => o.resp.entries)
            = [if (json.value "id").toString = "" then
                 [("result", QJsonValue.string "user_cancel")]
               else
                 [("id", QJsonValue.string (json.value "id").toString),
                  ("result", QJsonValue.string "user_cancel")]])
      ∧ (r = HandlerResult.runtimeError →
          (outputs (processMessage d self json).2).map (fun o => o.resp.find "result")
            = [some (QJsonValue.string "technical_error")]
          ∧ (outputs (processMessage d self json).2).map (fun o => o.resp.entries)
            = [if (json.value "id").toString = "" then
                 [("result", QJsonValue.string "technical_error")]
               else
                 [("id", QJsonValue.string (json.value "id").toString),
                  ("result", QJsonValue.string "technical_error")]])
      ∧ (r = HandlerResult.invalidArgument →
          (outputs (processMessage d self json).2).map (fun o => o.resp.find "result")
            = [some (QJsonValue.string "invalid_argument")]
          ∧ (outputs (processMessage d self json).2).map (fun o => o.resp.entries)
            = [if (json.value "id").toString = "" then
                 [("result", QJsonValue.string "invalid_argument")]
               else
                 [("id", QJsonValue.string (json.value "id").toString),
                  ("result", QJsonValue.string "invalid_argument")]])
      ∧ ((json.value "id").toString ≠ "" → r ≠ HandlerResult.otherException →
          (outputs (processMessage d self json).2).map (fun o => o.resp.find "id")
            = [some (QJsonValue.string (json.value "id").toString)])
      ∧ ((json.value "id").toString = "" →
          r = HandlerResult.userCanceled ∨ r = HandlerResult.runtimeError
            ∨ r = HandlerResult.invalidArgument →
          (outputs (processMessage d self json).2).map (fun o => o.resp.find "id") = [none]
            ∧ (outputs (processMessage d self json).2).map (fun o => o.resp.contains "id")
                = [false]) := by
  have hout : outputs (processMessage d self json).2
      = responses d (caught r) (json.value "id").toString := by
    rw [(validated_effects d self json hv).1]
    rcases hran with ⟨ht, hr⟩ | ⟨ht, hr⟩ | ⟨ht, hr⟩
    · rw [dispatch_sign d _ json ht, hr]
    · rw [dispatch_cert d _ json ht, hr]
    · rw [dispatch_auth d _ json ht, hr]
  have hfail : ∀ s : String,
      caught r = some (QVariantMap.ofPairs [("result", QJsonValue.string s)]) →
        (outputs (processMessage d self json).2).map (fun o => o.resp.find "result")
            = [some (QJsonValue.string s)]
          ∧ (outputs (processMessage d self json).2).map (fun o => o.resp.entries)
            = [if (json.value "id").toString = "" then [("result", QJsonValue.string s)]
               else [("id", QJsonValue.string (json.value "id").toString),
                     ("result", QJsonValue.string s)]]
          ∧ ((json.value "id").toString = "" →
              (outputs (processMessage d self json).2).map (fun o => o.resp.find "id") = [none]
                ∧ (outputs (processMessage d self json).2).map
                    (fun o => o.resp.contains "id") = [false]) := by
    intro s hc
    rw [hout, hc]
    simp only [responses, List.map]
    refine ⟨?_, ?_, fun hn => ?_⟩
    · rw [write_find_result, ofPairs_result_find]
      rfl
    · rw [write_result_entries]
    · have he := write_result_entries d s (json.value "id").toString
      rw [if_pos hn] at he
      simp only [QVariantMap.find, QVariantMap.contains, he]
      exact ⟨rfl, rfl⟩
  refine ⟨fun hr => ?_, fun hr => ?_, fun hr => ?_, fun hn hr => ?_, fun hn hr => ?_⟩
  · obtain ⟨h1, h2, -⟩ := hfail "user_cancel" (by rw [hr]; rfl)
    refine ⟨h1, ?_, h2⟩
    rw [h1]
    intro hne
    simp at hne
  · obtain ⟨h1, h2, -⟩ := hfail "technical_error" (by rw [hr]; rfl)
    exact ⟨h1, h2⟩
  · obtain ⟨h1, h2, -⟩ := hfail "invalid_argument" (by rw [hr]; rfl)
    exact ⟨h1, h2⟩
  · rw [hout]
    cases r with
    | otherException => exact absurd rfl hr
    | returned resp => simp only [caught, responses, List.map, write_find_id, if_neg hn]
    | userCanceled => simp only [caught, responses, List.map, write_find_id, if_neg hn]
    | runtimeError => simp only [caught, responses, List.map, write_find_id, if_neg hn]
    | invalidArgument => simp only [caught, responses, List.map, write_find_id, if_neg hn]
  · rcases hr with hr | hr | hr
    · exact (hfail "user_cancel" (by rw [hr]; rfl)).2.2 hn
    · exact (hfail "technical_error" (by rw [hr]; rfl)).2.2 hn
    · exact (hfail "invalid_argument" (by rw [hr]; rfl)).2.2 hn

/-- Claim C8 amended, at concrete inputs: a CERT message from the pinned origin,
the user cancelling the certificate selection, once with id "9" and once with
the number 7 as id. -/
theorem handler_failure_result_witness :
    (outputs (processMessage demoDeps pinnedHost
        (message "9" "CERT" "https://example.com")).2).map (fun o => o.resp.find "result")
      = [some (QJsonValue.string "user_cancel")]
    ∧ (outputs (processMessage demoDeps pinnedHost
        (message "9" "CERT" "https://example.com")).2).map (fun o => o.resp.find "id")
      = [some (QJsonValue.string "9")]
    ∧ (outputs (processMessage demoDeps pinnedHost
        (messageNumericId "CERT" "https://example.com")).2).map (fun o => o.resp.contains "id")
      = [false] :=
  have h := handler_failure_result demoDeps pinnedHost
    (message "9" "CERT" "https://example.com") (by decide) HandlerResult.userCanceled
    (Or.inr (Or.inl ⟨rfl, rfl⟩))
  have h7 := handler_failure_result demoDeps pinnedHost
    (messageNumericId "CERT" "https://example.com") (by decide) HandlerResult.userCanceled
    (Or.inr (Or.inl ⟨rfl, rfl⟩))
  ⟨(h.1 rfl).1, h.2.2.2.1 (by decide) (by intro hc; cases hc),
    (h7.2.2.2.2 rfl (Or.inl rfl)).2⟩

/-! ## Fatal rejections and framing (C9, C10) -/

/-- Claim C9, as stated, fails: a message of the unrecognized type "PING" from an
accepted origin is answered with result "invalid_argument" and no shutdown is
requested. -/
theorem unrecognized_type_not_fatal :
    validated demoDeps QtHost.initial (message "1" "PING" "https://example.com")
      ∧ unrecognized "PING"
      ∧ (outputs (processMessage demoDeps QtHost.initial
            (message "1" "PING" "https://example.com")).2).map (fun o => o.resp.entries)
          = [[("id", QJsonValue.string "1"), ("result", QJsonValue.string "invalid_argument")]]
      ∧ shutdowns (processMessage demoDeps QtHost.initial
            (message "1" "PING" "https://example.com")).2 = [] :=
  ⟨by decide, by decide, rfl, rfl⟩

/-- Claim C9, amended: an empty object, a message lacking type, id or origin, a
first message with a disallowed origin and a message whose origin differs from
the pinned one are fatal: the effects are exactly one error response (result
"invalid_argument", or "not_allowed" for the disallowed origin) followed by the
shutdown request with the non-zero status `EXIT_FAILURE`.  A validated message of
an unrecognized type gets a response with result "invalid_argument" and no
shutdown request. -/
theorem protocol_violation_fatal (d : Deps) (self : QtHost) (json : QJsonObject) :
    ((json.isEmpty = true
        ∨ (json.contains "type" = false ∨ json.contains "id" = false
            ∨ json.contains "origin" = false)
        ∨ (self.origin = "" ∧ ¬ secure (d.url (json.value "origin").toString))
        ∨ (self.origin ≠ "" ∧ (json.value "origin").toString ≠ self.origin)) →
      ∃ o s, processMessage d self json = (self, [Effect.write o, Effect.shutdown EXIT_FAILURE])
        ∧ o.resp.find "result" = some (QJsonValue.string s)
        ∧ (s = "invalid_argument" ∨ s = "not_allowed")
        ∧ EXIT_FAILURE ≠ 0)
      ∧ (validated d self json → unrecognized (json.value "type").toString →
          (outputs (processMessage d self json).2).map (fun o => o.resp.find "result")
              = [some (QJsonValue.string "invalid_argument")]
            ∧ shutdowns (processMessage d self json).2 = []) := by
  constructor
  · intro hviol
    have hnv : ¬ validated d self json := by
      rintro ⟨htype, hid, horigin, ho⟩
      rcases hviol with h | h | h | h
      · rw [isEmpty_of_contains json "type" htype] at h
        exact absurd h (by decide)
      · rcases h with h | h | h
        · rw [htype] at h; exact absurd h (by decide)
        · rw [hid] at h; exact absurd h (by decide)
        · rw [horigin] at h; exact absurd h (by decide)
      · rw [if_pos h.1] at ho
        exact h.2 ho
      · rw [if_neg h.1] at ho
        exact h.2 ho.symm
    obtain ⟨resp, s, hpm, hres, hs⟩ := processMessage_not_validated d self json hnv
    refine ⟨write d resp (json.value "id").toString, s, ?_, ?_, hs, by decide⟩
    · rw [hpm]; rfl
    · rw [write_find_result, hres]; rfl
  · intro hv ht
    obtain ⟨hout, hshut, -⟩ := validated_effects d self json hv
    rw [hout, hshut, dispatch_unrecognized d _ json ht]
    refine ⟨?_, rfl⟩
    simp only [List.map, write_find_result]
    rfl

/-- Claim C9 amended, at concrete inputs: the empty object, and a message of
type "PING" from the pinned origin. -/
theorem protocol_violation_fatal_witness :
    (∃ o s, processMessage demoDeps pinnedHost ⟨[]⟩
          = (pinnedHost, [Effect.write o, Effect.shutdown EXIT_FAILURE])
        ∧ o.resp.find "result" = some (QJsonValue.string s)
        ∧ (s = "invalid_argument" ∨ s = "not_allowed")
        ∧ EXIT_FAILURE ≠ 0)
    ∧ shutdowns (processMessage demoDeps pinnedHost
        (message "3" "PING" "https://example.com")).2 = [] :=
  ⟨(protocol_violation_fatal demoDeps pinnedHost ⟨[]⟩).1 (Or.inl rfl),
   ((protocol_violation_fatal demoDeps pinnedHost
      (message "3" "PING" "https://example.com")).2 (by decide) (by decide)).2⟩

theorem quint32Value_quint32Bytes (bigEndian : Bool) (n : Nat) (hn : n < 2 ^ 32)
    (rest : List Byte) :
    quint32Value bigEndian ((quint32Bytes bigEndian n ++ rest).take 4) = some n := by
  cases bigEndian
  · simp only [quint32Bytes, quint32Value, Bool.false_eq_true, if_false, List.cons_append,
      List.nil_append, List.take_succ_cons, List.take_zero]
    congr 1
    omega
  · simp only [quint32Bytes, quint32Value, if_true, List.cons_append,
      List.nil_append, List.take_succ_cons, List.take_zero]
    congr 1
    omega

theorem length_quint32Bytes (bigEndian : Bool) (n : Nat) :
    (quint32Bytes bigEndian n).length = 4 := by
  cases bigEndian <;> rfl

/-- Claim C10: when the JSON encoding of the response is shorter than 2^32
bytes, `write` outputs the 4 bytes of a native-order unsigned integer whose
value is the length of the encoding, followed by exactly the bytes of the
encoding; the output is 4 bytes longer than the encoding. -/
theorem write_frame (d : Deps) (resp : QVariantMap) (nonce : String)
    (hlen : (d.toJson (write d resp nonce).resp).length < 2 ^ 32) :
    (write d resp nonce).bytes
        = quint32Bytes d.bigEndian (d.toJson (write d resp nonce).resp).length
            ++ d.toJson (write d resp nonce).resp
      ∧ quint32Value d.bigEndian ((write d resp nonce).bytes.take 4)
          = some (d.toJson (write d resp nonce).resp).length
      ∧ (write d resp nonce).bytes.drop 4 = d.toJson (write d resp nonce).resp
      ∧ (write d resp nonce).bytes.length = 4 + (d.toJson (write d resp nonce).resp).length := by
  have hbytes : (write d resp nonce).bytes
      = quint32Bytes d.bigEndian (d.toJson (write d resp nonce).resp).length
          ++ d.toJson (write d resp nonce).resp := by
    have hmod : (d.toJson (write d resp nonce).resp).length % 2 ^ 32
        = (d.toJson (write d resp nonce).resp).length := Nat.mod_eq_of_lt hlen
    have h0 : (write d resp nonce).bytes
        = quint32Bytes d.bigEndian ((d.toJson (write d resp nonce).resp).length % 2 ^ 32)
            ++ d.toJson (write d resp nonce).resp := rfl
    rw [h0, hmod]
  refine ⟨hbytes, ?_, ?_, ?_⟩
  · rw [hbytes]
    exact quint32Value_quint32Bytes _ _ hlen _
  · rw [hbytes, List.drop_append_of_le_length (by rw [length_quint32Bytes])]
    rw [List.drop_of_length_le (by rw [length_quint32Bytes])]
    rfl
  · rw [hbytes, List.length_append, length_quint32Bytes]

/-- Claim C10, at a concrete input: the response to a VERSION request with id
"1", printed compactly (44 bytes), on a little-endian machine. -/
theorem write_frame_witness :
    (write demoDeps (QVariantMap.ofPairs [("version", QJsonValue.string VERSION)]) "1").bytes.take 4
        = [44, 0, 0, 0]
      ∧ (write demoDeps (QVariantMap.ofPairs [("version", QJsonValue.string VERSION)])
            "1").bytes.length = 4 + 44 :=
  have h := write_frame demoDeps (QVariantMap.ofPairs [("version", QJsonValue.string VERSION)]) "1"
    (by decide)
  ⟨by rw [h.1]; rfl, by rw [h.2.2.2]; rfl⟩

/-! ## Reader monitor and worker (C11 - C20) -/

/-- Claim C11, evaluated at the failing input: reader "R" holds a mute card (error
signal, no card-inserted signal) and is then unplugged; a card-removed signal for
"R" is emitted although no card-inserted signal for "R" came before. -/
theorem mute_card_removed_without_insert :
    emitted (run false true muteThenUnplugged).2.1
      = [Signal.readerAttached "R",
         Signal.error "R" SCARD_W_UNRESPONSIVE_CARD,
         Signal.readerListChanged [("R", ["PRESENT", "MUTE"])],
         Signal.cardRemoved "R"] := by
  decide

/-- Claim C12: for an entry of the returned vector that is flagged changed, is not
unknown, has PRESENT set while the cached state of its reader lacks PRESENT, the
only signal is an error for that reader with code `SCARD_W_UNRESPONSIVE_CARD`
when MUTE is set, and otherwise a card-inserted signal for that reader carrying
the first `cbAtr` bytes of the reported ATR. -/
theorem diffEntry_newly_present (s : Monitor) (i : SCARD_READERSTATE)
    (hchanged : hasFlag i.dwEventState SCARD_STATE_CHANGED = true)
    (hknown : hasFlag i.dwEventState SCARD_STATE_UNKNOWN = false)
    (hpresent : hasFlag i.dwEventState SCARD_STATE_PRESENT = true)
    (hcached : hasFlag (cached s.known i.szReader) SCARD_STATE_PRESENT = false) :
    (hasFlag i.dwEventState SCARD_STATE_MUTE = true →
        (diffEntry s i).2 = [Signal.error i.szReader SCARD_W_UNRESPONSIVE_CARD])
      ∧ (hasFlag i.dwEventState SCARD_STATE_MUTE = false →
          (diffEntry s i).2 = [Signal.cardInserted i.szReader (i.rgbAtr.take i.cbAtr)]) := by
  constructor
  · intro hmute
    simp [diffEntry, hchanged, hknown, hpresent, hcached, hmute]
  · intro hmute
    simp [diffEntry, hchanged, hknown, hpresent, hcached, hmute]

/-- Claim C12, at the input of the scenario: the cached state of "R" is EMPTY and
PRESENT, MUTE, CHANGED is returned. -/
theorem diffEntry_newly_present_witness :
    (diffEntry { cardInR with known := [("R", SCARD_STATE_EMPTY)] }
        ⟨"R", SCARD_STATE_EMPTY,
          SCARD_STATE_PRESENT ||| SCARD_STATE_MUTE ||| SCARD_STATE_CHANGED, 0, []⟩).2
      = [Signal.error "R" SCARD_W_UNRESPONSIVE_CARD] :=
  (diffEntry_newly_present { cardInR with known := [("R", SCARD_STATE_EMPTY)] }
    ⟨"R", SCARD_STATE_EMPTY,
      SCARD_STATE_PRESENT ||| SCARD_STATE_MUTE ||| SCARD_STATE_CHANGED, 0, []⟩
    (by decide) (by decide) (by decide) (by decide)).1 (by decide)

/-- Claim C13, as stated, fails: in a build with a context per thread the protocol
hint "T=2" is rejected only after `SCardEstablishContext` was called; and when
that call fails the disconnected signal carries its status. -/
theorem invalid_protocol_after_establish :
    connectCard ⟨true, false⟩ ⟨SCARD_S_SUCCESS, (SCARD_S_SUCCESS, SCARD_PROTOCOL_T0), SCARD_S_SUCCESS⟩
        "R" "T=2"
      = [TraceStep.call Call.establishContext,
         TraceStep.emit (WorkerSignal.disconnected SCARD_E_INVALID_PARAMETER)]
    ∧ connectCard ⟨true, false⟩ ⟨SCARD_E_NO_SERVICE, (SCARD_S_SUCCESS, SCARD_PROTOCOL_T0),
          SCARD_S_SUCCESS⟩ "R" "T=2"
      = [TraceStep.call Call.establishContext,
         TraceStep.emit (WorkerSignal.disconnected SCARD_E_NO_SERVICE)] := by
  decide

/-- Claim C13, amended: for a protocol hint other than "T=0", "T=1" and "*",
`connectCard` never calls card connect and emits exactly one signal, a
disconnected signal.  In a build without a context per thread there is no PC/SC
call and the code is `SCARD_E_INVALID_PARAMETER`.  In a build with a context per
thread `SCardEstablishContext` is called first, and the code is
`SCARD_E_INVALID_PARAMETER` when that call succeeds and its status when it
fails. -/
theorem connectCard_invalid_protocol (p : Platform) (env : ConnectEnv) (reader protocol : String)
    (hbad : protocol ≠ "T=0" ∧ protocol ≠ "T=1" ∧ protocol ≠ "*") :
    (p.perThreadContext = false →
        connectCard p env reader protocol
          = [TraceStep.emit (WorkerSignal.disconnected SCARD_E_INVALID_PARAMETER)])
      ∧ (p.perThreadContext = true → env.establish = SCARD_S_SUCCESS →
          connectCard p env reader protocol
            = [TraceStep.call Call.establishContext,
               TraceStep.emit (WorkerSignal.disconnected SCARD_E_INVALID_PARAMETER)])
      ∧ (p.perThreadContext = true → env.establish ≠ SCARD_S_SUCCESS →
          connectCard p env reader protocol
            = [TraceStep.call Call.establishContext,
               TraceStep.emit (WorkerSignal.disconnected env.establish)]) := by
  obtain ⟨h0, h1, h2⟩ := hbad
  refine ⟨fun hp => ?_, fun hp he => ?_, fun hp he => ?_⟩
  · simp [connectCard, hp, h0, h1, h2]
  · simp [connectCard, hp, he, h0, h1, h2]
  · simp [connectCard, hp, he]

/-- Claim C13 amended, at a concrete input: hint "T=2" in a build without a context
per thread. -/
theorem connectCard_invalid_protocol_witness :
    connectCard ⟨false, false⟩ ⟨SCARD_S_SUCCESS, (SCARD_S_SUCCESS, SCARD_PROTOCOL_T0),
        SCARD_S_SUCCESS⟩ "R" "T=2"
      = [TraceStep.emit (WorkerSignal.disconnected SCARD_E_INVALID_PARAMETER)] :=
  (connectCard_invalid_protocol ⟨false, false⟩ _ "R" "T=2" (by decide)).1 rfl

/-- Claim C14: `SCardTransmit` is called with a response buffer of 4096 bytes.
When it returns a status other than success, the card is disconnected with the
reset disposition and the only signal is a disconnected signal with that
status.  When it succeeds, leaving `rlen` at most 4096, the only signal is a
received signal with the first `rlen` bytes of the buffer. -/
theorem transmit_outcome (env : TransmitEnv) (apdu : List Byte)
    (hbuf : env.response.length = 4096) (hlen : env.rlen ≤ 4096) :
    (env.err ≠ SCARD_S_SUCCESS →
        transmit env apdu
          = [TraceStep.call (Call.transmit apdu 4096),
             TraceStep.call (Call.disconnect SCARD_RESET_CARD),
             TraceStep.emit (WorkerSignal.disconnected env.err)])
      ∧ (env.err = SCARD_S_SUCCESS →
          transmit env apdu
              = [TraceStep.call (Call.transmit apdu 4096),
                 TraceStep.emit (WorkerSignal.received (env.response.take env.rlen))]
            ∧ (env.response.take env.rlen).length = env.rlen) := by
  refine ⟨fun he => ?_, fun he => ?_⟩
  · simp [transmit, he]
  · have hz : env.rlen - env.response.length = 0 := by omega
    refine ⟨?_, ?_⟩
    · simp [transmit, he, resize, hz]
    · rw [List.length_take]
      omega

/-- Claim C14, at a concrete input: the card answers the two status bytes 0x90
0x00 to a SELECT command. -/
theorem transmit_outcome_witness :
    emitted (transmit ⟨SCARD_S_SUCCESS, 2, [0x90, 0x00] ++ List.replicate 4094 0⟩
        [0x00, 0xA4, 0x04, 0x00])
      = [WorkerSignal.received [0x90, 0x00]] := by
  rw [(transmit_outcome ⟨SCARD_S_SUCCESS, 2, [0x90, 0x00] ++ List.replicate 4094 0⟩
    [0x00, 0xA4, 0x04, 0x00]
    (by rw [List.length_append, List.length_replicate]; rfl) (by decide)).2 rfl |>.1]
  rfl

/-- Claim C19, evaluated at the failing input: the first status wait returns
`SCARD_E_UNKNOWN_READER`; the loop ends, the context is released, and no further
listing or wait takes place although results for two more cycles are at hand. -/
theorem unknown_reader_ends_loop :
    (run false true unknownReaderRun).2.2 = Next.leave
      ∧ calls (run false true unknownReaderRun).2.1
          = [Call.establishContext,
             Call.getStatusChange 0 [queryEntry PNP_READER_NAME SCARD_STATE_UNAWARE],
             Call.listReaders false, Call.listReaders true,
             Call.getStatusChange 600000 [queryEntry "R" SCARD_STATE_UNAWARE],
             Call.releaseContext]
      ∧ (run false true unknownReaderRun).1.list = true := by
  decide

/-! ## Lemmas on the cache of reader states -/

theorem lookup_cons_if {β : Type} (k a : String) (b : β) (l : List (String × β)) :
    List.lookup k ((a, b) :: l) = if k = a then some b else List.lookup k l := by
  by_cases h : k = a
  · subst h
    simp [List.lookup]
  · have hb : (k == a) = false := by simpa using h
    simp [List.lookup, hb, h]

theorem lookup_assign (r : String) (v : DWORD) (known : Known) (k : String) :
    (assign r v known).lookup k = if k = r then some v else known.lookup k := by
  induction known with
  | nil =>
      simp only [assign]
      rw [lookup_cons_if]
  | cons p rest ih =>
      obtain ⟨a, b⟩ := p
      simp only [assign]
      split_ifs with h1 h2 h3 h4 h5
      all_goals simp only [lookup_cons_if, ih]
      all_goals split_ifs <;> simp_all

theorem lookup_removeReader (e : String) (known : Known) (k : String) :
    (removeReader e known).lookup k = if k = e then none else known.lookup k := by
  induction known with
  | nil => simp [removeReader]
  | cons p rest ih =>
      obtain ⟨a, b⟩ := p
      unfold removeReader at ih ⊢
      by_cases ha : a = e
      · subst ha
        simp only [List.filter, bne_self_eq_false, ih, lookup_cons_if]
        split_ifs <;> rfl
      · have hb : (a != e) = true := by simpa using ha
        simp only [List.filter, hb, lookup_cons_if, ih]
        split_ifs with h1 h2 <;> simp_all

theorem mem_keys_iff (known : Known) (n : String) :
    n ∈ keys known ↔ (known.lookup n).isSome = true := by
  induction known with
  | nil => simp [keys]
  | cons p rest ih =>
      obtain ⟨a, b⟩ := p
      unfold keys at ih ⊢
      rw [lookup_cons_if]
      by_cases h : n = a
      · simp [h]
      · simp only [List.map_cons, List.mem_cons, h, false_or, if_false]
        exact ih

theorem lookup_touch (r : String) (known : Known) (k : String) :
    (touch r known).lookup k
      = if k = r ∧ known.lookup r = none then some SCARD_STATE_UNAWARE else known.lookup k := by
  unfold touch
  cases hr : known.lookup r with
  | none =>
      simp only [Option.isSome_none, Bool.false_eq_true, if_false, lookup_assign, and_true]
  | some v =>
      simp

/-! ### The removal loop -/

theorem lookup_removeUnknown (names : List String) (es : List String) (known : Known)
    (k : String) :
    (removeUnknown names es known).1.lookup k
      = if k ∈ es ∧ k ∉ names then none else known.lookup k := by
  induction es generalizing known with
  | nil => simp [removeUnknown]
  | cons e rest ih =>
      simp only [removeUnknown]
      by_cases he : e ∈ names
      · simp only [he, if_true, ih, List.mem_cons]
        by_cases hk : k = e
        · subst hk
          simp [he]
        · simp [hk]
      · simp only [he, if_false, ih, lookup_removeReader, List.mem_cons]
        by_cases hk : k = e
        · subst hk
          simp [he]
        · simp [hk]

theorem removed_mem_removeUnknown (names : List String) (es : List String) (known : Known)
    (n : String) :
    Signal.readerRemoved n ∈ (removeUnknown names es known).2 ↔ n ∈ es ∧ n ∉ names := by
  induction es generalizing known with
  | nil => simp [removeUnknown]
  | cons e rest ih =>
      simp only [removeUnknown]
      by_cases he : e ∈ names
      · simp only [he, if_true, ih, List.mem_cons]
        constructor
        · rintro ⟨h1, h2⟩
          exact ⟨Or.inr h1, h2⟩
        · rintro ⟨h1 | h1, h2⟩
          · subst h1
            exact absurd he h2
          · exact ⟨h1, h2⟩
      · simp only [he, if_false, List.mem_cons, Signal.readerRemoved.injEq, ih, reduceCtorEq,
          false_or]
        constructor
        · rintro (h | ⟨h1, h2⟩)
          · subst h
            exact ⟨Or.inl rfl, he⟩
          · exact ⟨Or.inr h1, h2⟩
        · rintro ⟨h1 | h1, h2⟩
          · exact Or.inl h1
          · exact Or.inr ⟨h1, h2⟩

theorem attached_not_mem_removeUnknown (names : List String) (es : List String) (known : Known)
    (n : String) :
    Signal.readerAttached n ∉ (removeUnknown names es known).2 := by
  induction es generalizing known with
  | nil => simp [removeUnknown]
  | cons e rest ih =>
      simp only [removeUnknown]
      by_cases he : e ∈ names
      · simp only [he, if_true]
        exact ih known
      · simp only [he, if_false, List.mem_cons, reduceCtorEq, false_or]
        exact ih _

/-! ### The loop that adds new readers -/

theorem lookup_addNew (es : List String) (known : Known) (change : Bool) (k : String) :
    (addNew es known change).1.lookup k
      = if k ∈ es ∧ known.lookup k = none then some SCARD_STATE_UNAWARE else known.lookup k := by
  induction es generalizing known change with
  | nil => simp [addNew]
  | cons e rest ih =>
      simp only [addNew]
      cases hl : known.lookup e with
      | some v =>
          simp only [Option.isSome_some, if_true, ih]
          split_ifs with h1 h2 h2
          · rfl
          · exact absurd ⟨List.mem_cons_of_mem _ h1.1, h1.2⟩ h2
          · rcases List.mem_cons.mp h2.1 with h | h
            · subst h
              rw [hl] at h2
              exact absurd h2.2 (by simp)
            · exact absurd ⟨h, h2.2⟩ h1
          · rfl
      | none =>
          simp only [Option.isSome_none, Bool.false_eq_true, if_false, ih, lookup_assign]
          by_cases hk : k = e
          · subst hk
            simp [hl]
          · simp only [hk, if_false]
            split_ifs with h1 h2 h2
            · rfl
            · exact absurd ⟨List.mem_cons_of_mem _ h1.1, h1.2⟩ h2
            · rcases List.mem_cons.mp h2.1 with h | h
              · exact absurd h hk
              · exact absurd ⟨h, h2.2⟩ h1
            · rfl

theorem attached_mem_addNew (es : List String) (known : Known) (change : Bool) (n : String) :
    Signal.readerAttached n ∈ (addNew es known change).2.2 ↔ n ∈ es ∧ known.lookup n = none := by
  induction es generalizing known change with
  | nil => simp [addNew]
  | cons e rest ih =>
      simp only [addNew]
      cases hl : known.lookup e with
      | some v =>
          simp only [Option.isSome_some, if_true, ih, List.mem_cons]
          constructor
          · rintro ⟨h1, h2⟩
            exact ⟨Or.inr h1, h2⟩
          · rintro ⟨h1 | h1, h2⟩
            · subst h1
              rw [hl] at h2
              exact absurd h2 (by simp)
            · exact ⟨h1, h2⟩
      | none =>
          simp only [Option.isSome_none, Bool.false_eq_true, if_false, List.mem_cons,
            Signal.readerAttached.injEq, ih, lookup_assign]
          constructor
          · rintro (h | ⟨h1, h2⟩)
            · subst h
              exact ⟨Or.inl rfl, hl⟩
            · by_cases hn : n = e
              · subst hn
                exact ⟨Or.inl rfl, hl⟩
              · rw [if_neg hn] at h2
                exact ⟨Or.inr h1, h2⟩
          · rintro ⟨h1 | h1, h2⟩
            · exact Or.inl h1
            · by_cases hn : n = e
              · exact Or.inl hn
              · exact Or.inr ⟨h1, by rw [if_neg hn]; exact h2⟩

theorem removed_not_mem_addNew (es : List String) (known : Known) (change : Bool) (n : String) :
    Signal.readerRemoved n ∉ (addNew es known change).2.2 := by
  induction es generalizing known change with
  | nil => simp [addNew]
  | cons e rest ih =>
      simp only [addNew]
      cases hl : known.lookup e with
      | some v =>
          simp only [Option.isSome_some, if_true]
          exact ih known change
      | none =>
          simp only [Option.isSome_none, Bool.false_eq_true, if_false, List.mem_cons,
            reduceCtorEq, false_or]
          exact ih _ _

theorem not_mem_keys_iff (known : Known) (n : String) :
    n ∉ keys known ↔ known.lookup n = none := by
  rw [mem_keys_iff]
  cases known.lookup n <;> simp

/-- Claim C17: the re-listing step emits reader-removed exactly for the names that
are cached but not enumerated and reader-attached exactly for the names that are
enumerated but not cached; afterwards the keys of the cache are the enumerated
names, a newly attached reader is cached with the unaware state (zero) and a
surviving reader keeps its cached state. -/
theorem relist_spec (known : Known) (change : Bool) (readernames : List String) :
    (∀ n, Signal.readerRemoved n ∈ (relist known change readernames).2.2
        ↔ n ∈ keys known ∧ n ∉ readernames)
      ∧ (∀ n, Signal.readerAttached n ∈ (relist known change readernames).2.2
          ↔ n ∈ readernames ∧ n ∉ keys known)
      ∧ (∀ n, n ∈ keys (relist known change readernames).1 ↔ n ∈ readernames)
      ∧ (∀ n, n ∈ readernames → n ∉ keys known →
          (relist known change readernames).1.lookup n = some SCARD_STATE_UNAWARE)
      ∧ (∀ n, n ∈ readernames → n ∈ keys known →
          (relist known change readernames).1.lookup n = known.lookup n) := by
  have hlook : ∀ n, (relist known change readernames).1.lookup n
      = if n ∈ readernames ∧ known.lookup n = none then some SCARD_STATE_UNAWARE
        else if n ∈ readernames then known.lookup n else none := by
    intro n
    simp only [relist]
    rw [lookup_addNew, lookup_removeUnknown]
    by_cases hn : n ∈ readernames
    · rw [if_neg (fun hc : n ∈ keys known ∧ n ∉ readernames => hc.2 hn)]
      cases hl : known.lookup n with
      | none => rw [if_pos ⟨hn, rfl⟩, if_pos ⟨hn, rfl⟩]
      | some v =>
          rw [if_neg (fun hc : n ∈ readernames ∧ some v = none => by simp at hc),
            if_neg (fun hc : n ∈ readernames ∧ some v = none => by simp at hc), if_pos hn]
    · rw [if_neg (fun hc : n ∈ readernames ∧ _ => hn hc.1),
        if_neg (fun hc : n ∈ readernames ∧ _ => hn hc.1), if_neg hn]
      by_cases hk : n ∈ keys known
      · rw [if_pos ⟨hk, hn⟩]
      · rw [if_neg (fun hc : n ∈ keys known ∧ n ∉ readernames => hk hc.1)]
        exact (not_mem_keys_iff known n).mp hk
  refine ⟨fun n => ?_, fun n => ?_, fun n => ?_, fun n hn hk => ?_, fun n hn hk => ?_⟩
  · simp only [relist, List.mem_append, removed_mem_removeUnknown]
    constructor
    · rintro (h | h)
      · exact h
      · exact absurd h (removed_not_mem_addNew _ _ _ _)
    · intro h
      exact Or.inl h
  · simp only [relist, List.mem_append, attached_mem_addNew, lookup_removeUnknown]
    constructor
    · rintro (h | ⟨h1, h2⟩)
      · exact absurd h (attached_not_mem_removeUnknown _ _ _ _)
      · refine ⟨h1, ?_⟩
        rw [if_neg (fun hc => hc.2 h1)] at h2
        exact (not_mem_keys_iff known n).mpr h2
    · rintro ⟨h1, h2⟩
      refine Or.inr ⟨h1, ?_⟩
      rw [if_neg (fun hc => hc.2 h1)]
      exact (not_mem_keys_iff known n).mp h2
  · rw [mem_keys_iff, hlook]
    by_cases hn : n ∈ readernames
    · cases hl : known.lookup n <;> simp [hn]
    · simp [hn]
  · rw [hlook, if_pos ⟨hn, (not_mem_keys_iff known n).mp hk⟩]
  · rw [hlook]
    have hsome := (mem_keys_iff known n).mp hk
    cases hl : known.lookup n with
    | none => rw [hl] at hsome; exact absurd hsome (by simp)
    | some v => simp [hn]

/-! ## Lemmas on flags and on the shape of a cycle -/

theorem hasFlag_clearFlag (x m : DWORD) : hasFlag (clearFlag x m) m = false := by
  have h : (x ^^^ (x &&& m)) &&& m = 0 := by
    apply Nat.eq_of_testBit_eq
    intro i
    simp only [Nat.testBit_and, Nat.testBit_xor, Nat.zero_testBit]
    cases x.testBit i <;> cases m.testBit i <;> rfl
  simp [hasFlag, clearFlag, h]

theorem mem_assign (r : String) (v : DWORD) (known : Known) (kv : String × DWORD)
    (h : kv ∈ assign r v known) : kv = (r, v) ∨ kv ∈ known := by
  induction known with
  | nil =>
      simp only [assign, List.mem_singleton] at h
      exact Or.inl h
  | cons p rest ih =>
      obtain ⟨a, b⟩ := p
      simp only [assign] at h
      split_ifs at h with h1 h2
      · rcases List.mem_cons.mp h with h | h
        · exact Or.inl h
        · exact Or.inr (List.mem_cons_of_mem _ h)
      · rcases List.mem_cons.mp h with h | h
        · exact Or.inl h
        · exact Or.inr h
      · rcases List.mem_cons.mp h with h | h
        · exact Or.inr (by rw [h]; exact List.mem_cons_self _ _)
        · rcases ih h with h | h
          · exact Or.inl h
          · exact Or.inr (List.mem_cons_of_mem _ h)

theorem noChangedFlag_assign (r : String) (v : DWORD) (known : Known)
    (hk : noChangedFlag known) (hv : hasFlag v SCARD_STATE_CHANGED = false) :
    noChangedFlag (assign r v known) := by
  intro kv hmem
  rcases mem_assign r v known kv hmem with h | h
  · rw [h]; exact hv
  · exact hk kv h

theorem noChangedFlag_touch (r : String) (known : Known) (hk : noChangedFlag known) :
    noChangedFlag (touch r known) := by
  unfold touch
  split_ifs
  · exact hk
  · exact noChangedFlag_assign r _ known hk (by decide)

theorem noChangedFlag_removeReader (e : String) (known : Known) (hk : noChangedFlag known) :
    noChangedFlag (removeReader e known) := by
  intro kv hmem
  exact hk kv (List.mem_of_mem_filter hmem)

theorem noChangedFlag_removeUnknown (names es : List String) (known : Known)
    (hk : noChangedFlag known) : noChangedFlag (removeUnknown names es known).1 := by
  induction es generalizing known with
  | nil => exact hk
  | cons e rest ih =>
      simp only [removeUnknown]
      split_ifs
      · exact ih known hk
      · exact ih _ (noChangedFlag_removeReader e known hk)

theorem noChangedFlag_addNew (es : List String) (known : Known) (change : Bool)
    (hk : noChangedFlag known) : noChangedFlag (addNew es known change).1 := by
  induction es generalizing known change with
  | nil => exact hk
  | cons e rest ih =>
      simp only [addNew]
      split_ifs
      · exact ih known change hk
      · exact ih _ _ (noChangedFlag_assign e _ known hk (by decide))

theorem noChangedFlag_relist (known : Known) (change : Bool) (names : List String)
    (hk : noChangedFlag known) : noChangedFlag (relist known change names).1 := by
  simp only [relist]
  exact noChangedFlag_addNew _ _ _ (noChangedFlag_removeUnknown _ _ _ hk)

theorem noChangedFlag_foldl_touch (names : List String) (known : Known)
    (hk : noChangedFlag known) :
    noChangedFlag (names.foldl (fun k r => touch r k) known) := by
  induction names generalizing known with
  | nil => exact hk
  | cons r rest ih =>
      simp only [List.foldl_cons]
      exact ih _ (noChangedFlag_touch r known hk)

theorem noChangedFlag_diffEntry (s : Monitor) (i : SCARD_READERSTATE)
    (hk : noChangedFlag s.known) : noChangedFlag (diffEntry s i).1.known := by
  have ha := noChangedFlag_assign i.szReader (clearFlag i.dwEventState SCARD_STATE_CHANGED)
    s.known hk (hasFlag_clearFlag _ _)
  unfold diffEntry
  split_ifs
  all_goals first | exact hk | exact noChangedFlag_touch _ _ hk | exact ha

theorem noChangedFlag_diffAll (l : List SCARD_READERSTATE) (s : Monitor)
    (hk : noChangedFlag s.known) : noChangedFlag (diffAll s l).1.known := by
  induction l generalizing s with
  | nil => exact hk
  | cons i rest ih =>
      simp only [diffAll]
      exact ih _ (noChangedFlag_diffEntry s i hk)

theorem known_pnpEvent (s : Monitor) (statuses : List SCARD_READERSTATE) :
    (pnpEvent s statuses).1.known = s.known := by
  unfold pnpEvent
  split_ifs
  · cases statuses.getLast? with
    | none => rfl
    | some back =>
        simp only []
        split_ifs <;> rfl
  · rfl

theorem known_flushChange (s : Monitor) : (flushChange s).1.known = s.known := by
  unfold flushChange
  split_ifs <;> rfl

theorem loopCondition_again (rv : LONG) (h : rv = SCARD_E_TIMEOUT ∨ rv = SCARD_S_SUCCESS) :
    loopCondition rv = Next.again := by
  unfold loopCondition
  rcases h with h | h <;> simp [h]

theorem loopCondition_leave (rv : LONG) (h1 : rv ≠ SCARD_E_TIMEOUT) (h2 : rv ≠ SCARD_S_SUCCESS) :
    loopCondition rv = Next.leave := by
  unfold loopCondition
  simp [h1, h2]

/-- The five ways through the listing phase. -/
theorem listPhase_cases (s : Monitor) (env : CycleEnv) :
    (s.list = false ∧ listPhase s env = (s, [], none))
      ∨ (s.list = true ∧ (env.listSize.1 ≠ SCARD_S_SUCCESS ∨ env.listSize.2 = 0) ∧
          listPhase s env
            = ({ s with readernames := [] },
               [TraceStep.call (Call.listReaders false),
                TraceStep.emit (Signal.error "" env.listSize.1)],
               some Next.returned))
      ∨ (s.list = true ∧ env.listSize.1 = SCARD_S_SUCCESS ∧ env.listSize.2 ≠ 0
          ∧ env.listData.1 ≠ SCARD_S_SUCCESS ∧
          listPhase s env
            = ({ s with readernames := [] },
               [TraceStep.call (Call.listReaders false), TraceStep.call (Call.listReaders true),
                TraceStep.emit (Signal.error "" env.listData.1)],
               some Next.returned))
      ∨ (s.list = true ∧ ∃ names,
          listPhase s env
            = ({ s with known := (relist s.known s.change names).1,
                        change := (relist s.known s.change names).2.1,
                        readernames := names, list := false },
               [TraceStep.call (Call.listReaders false), TraceStep.call (Call.listReaders true)]
                 ++ (relist s.known s.change names).2.2.map TraceStep.emit,
               none))
      ∨ (s.list = true ∧
          listPhase s env
            = ({ s with readernames := [] },
               [TraceStep.call (Call.listReaders false), TraceStep.call (Call.listReaders true)],
               some Next.undefined)) := by
  unfold listPhase
  by_cases hl : s.list = true
  · by_cases h1 : env.listSize.1 ≠ SCARD_S_SUCCESS ∨ env.listSize.2 = 0
    · right; left
      exact ⟨hl, h1, by rw [if_pos hl, if_pos h1]⟩
    · have h1a : env.listSize.1 = SCARD_S_SUCCESS := by
        by_contra hc; exact h1 (Or.inl hc)
      have h1b : env.listSize.2 ≠ 0 := fun hc => h1 (Or.inr hc)
      by_cases h2 : env.listData.1 ≠ SCARD_S_SUCCESS
      · right; right; left
        exact ⟨hl, h1a, h1b, h2, by rw [if_pos hl, if_neg h1, if_pos h2]⟩
      · rw [if_pos hl, if_neg h1, if_neg h2]
        cases hx : extractNames env.listData.2.length env.listData.2 [] with
        | names readernames =>
            right; right; right; left
            exact ⟨hl, readernames, rfl⟩
        | pastEnd =>
            right; right; right; right
            exact ⟨hl, rfl⟩
        | outOfFuel =>
            right; right; right; right
            exact ⟨hl, rfl⟩
  · left
    have hl2 : s.list = false := by simpa using hl
    exact ⟨hl2, by rw [if_neg hl]⟩

/-- Cache after the listing phase keeps the invariant. -/
theorem noChangedFlag_listPhase (s : Monitor) (env : CycleEnv) (hk : noChangedFlag s.known) :
    noChangedFlag (listPhase s env).1.known := by
  rcases listPhase_cases s env with ⟨-, h⟩ | ⟨-, -, h⟩ | ⟨-, -, -, -, h⟩ | ⟨-, names, h⟩ | ⟨-, h⟩
  · rw [h]; exact hk
  · rw [h]; exact hk
  · rw [h]; exact hk
  · rw [h]; exact noChangedFlag_relist _ _ _ hk
  · rw [h]; exact hk

theorem noChangedFlag_diffPhase (s : Monitor) (statuses : List SCARD_READERSTATE)
    (hk : noChangedFlag s.known) : noChangedFlag (diffPhase s statuses).1.known := by
  simp only [diffPhase]
  rw [known_flushChange]
  apply noChangedFlag_diffAll
  rw [known_pnpEvent]
  exact hk

theorem noChangedFlag_afterQuery (mac : Bool) (s : Monitor) (hk : noChangedFlag s.known) :
    noChangedFlag (afterQuery mac s).known := by
  simp only [afterQuery]
  exact noChangedFlag_foldl_touch _ _ hk

theorem noChangedFlag_waitPhase (mac : Bool) (s : Monitor) (wait : LONG × List Reported)
    (hk : noChangedFlag s.known) : noChangedFlag (waitPhase mac s wait).1.known := by
  unfold waitPhase
  split_ifs
  · exact noChangedFlag_afterQuery mac s hk
  · exact noChangedFlag_diffPhase _ _ (noChangedFlag_afterQuery mac s hk)
  · exact noChangedFlag_afterQuery mac s hk

theorem noChangedFlag_cycle (mac : Bool) (s : Monitor) (env : CycleEnv)
    (hk : noChangedFlag s.known) : noChangedFlag (cycle mac s env).1.known := by
  unfold cycle
  cases h : (listPhase s env).2.2 with
  | some next => exact noChangedFlag_listPhase s env hk
  | none => exact noChangedFlag_waitPhase mac _ _ (noChangedFlag_listPhase s env hk)

theorem noChangedFlag_loop (mac : Bool) (envs : List CycleEnv) (s : Monitor)
    (hk : noChangedFlag s.known) : noChangedFlag (loop mac s envs).1.known := by
  induction envs generalizing s with
  | nil => exact hk
  | cons env rest ih =>
      simp only [loop]
      cases h : (cycle mac s env).2.2 with
      | again => exact ih _ (noChangedFlag_cycle mac s env hk)
      | leave => exact noChangedFlag_cycle mac s env hk
      | returned => exact noChangedFlag_cycle mac s env hk
      | undefined => exact noChangedFlag_cycle mac s env hk

theorem noChangedFlag_run (mac pnp0 : Bool) (env : RunEnv) :
    noChangedFlag (run mac pnp0 env).1.known := by
  have h0 : ∀ probe, noChangedFlag (startState pnp0 probe).known := by
    intro probe kv hmem
    simp [startState] at hmem
  unfold run
  split_ifs
  · exact h0 _
  · simp only []
    have hl := noChangedFlag_loop mac env.cycles (startState pnp0 env.probe) (h0 _)
    cases h : (loop mac (startState pnp0 env.probe) env.cycles).2.2 <;> exact hl

theorem cached_assign (r : String) (v : DWORD) (known : Known) :
    cached (assign r v known) r = v := by
  simp [cached, lookup_assign]

/-- Claim C20, as stated, fails: the cached state of "R" is PRESENT (a card was
inserted in the cycle before) and the vector returns PRESENT with INUSE, not
unknown and without the CHANGED flag; the returned state differs from the
cached one and the cache is left as it was. -/
theorem unflagged_state_not_stored :
    (loop false (startState true noPnpProbe) insertInR).1 = cardInR
      ∧ hasFlag (SCARD_STATE_PRESENT ||| SCARD_STATE_INUSE) SCARD_STATE_UNKNOWN = false
      ∧ SCARD_STATE_PRESENT ||| SCARD_STATE_INUSE ≠ cached cardInR.known "R"
      ∧ (diffEntry cardInR
          ⟨"R", SCARD_STATE_PRESENT, SCARD_STATE_PRESENT ||| SCARD_STATE_INUSE, 0, []⟩).1.known
        = [("R", SCARD_STATE_PRESENT)]
      ∧ (cycle false cardInR
          (listsR (SCARD_S_SUCCESS, [⟨SCARD_STATE_PRESENT ||| SCARD_STATE_INUSE, 0, []⟩]))).1.known
        = [("R", SCARD_STATE_PRESENT)] := by
  decide

/-- Claim C20, amended: for an entry of the returned vector that is flagged
changed and is not reported unknown, the diff step replaces the cache entry of
its reader by the returned state with the CHANGED flag cleared; an entry that
is not flagged changed leaves the monitor as it is; and after any run of the
monitor, against any results of the PC/SC calls, no cached state has the
CHANGED flag set. -/
theorem diff_stores_flagged_state :
    (∀ (s : Monitor) (i : SCARD_READERSTATE),
        hasFlag i.dwEventState SCARD_STATE_CHANGED = true →
        hasFlag i.dwEventState SCARD_STATE_UNKNOWN = false →
          (diffEntry s i).1.known
              = assign i.szReader (clearFlag i.dwEventState SCARD_STATE_CHANGED) s.known
            ∧ cached (diffEntry s i).1.known i.szReader
                = clearFlag i.dwEventState SCARD_STATE_CHANGED
            ∧ hasFlag (cached (diffEntry s i).1.known i.szReader) SCARD_STATE_CHANGED = false)
      ∧ (∀ (s : Monitor) (i : SCARD_READERSTATE),
          hasFlag i.dwEventState SCARD_STATE_CHANGED = false → (diffEntry s i).1 = s)
      ∧ (∀ (mac pnp0 : Bool) (env : RunEnv), noChangedFlag (run mac pnp0 env).1.known) := by
  refine ⟨fun s i hc hu => ?_, fun s i hc => ?_, noChangedFlag_run⟩
  · have hk : (diffEntry s i).1.known
        = assign i.szReader (clearFlag i.dwEventState SCARD_STATE_CHANGED) s.known := by
      unfold diffEntry
      simp only [hc, hu, Bool.not_true, Bool.false_eq_true, if_false]
      split_ifs <;> rfl
    rw [hk, cached_assign]
    exact ⟨rfl, rfl, hasFlag_clearFlag _ _⟩
  · unfold diffEntry
    simp [hc]

/-- Claim C20 amended, at a concrete input: the cached state of "R" is PRESENT and
EMPTY with CHANGED is returned; EMPTY is stored. -/
theorem diff_stores_flagged_state_witness :
    cached (diffEntry cardInR
        ⟨"R", SCARD_STATE_PRESENT, SCARD_STATE_EMPTY ||| SCARD_STATE_CHANGED, 0, []⟩).1.known "R"
      = SCARD_STATE_EMPTY :=
  ((diff_stores_flagged_state.1 cardInR
      ⟨"R", SCARD_STATE_PRESENT, SCARD_STATE_EMPTY ||| SCARD_STATE_CHANGED, 0, []⟩
      (by decide) (by decide)).2.1).trans (by decide)

/-! ## Lemmas on the signals of a cycle -/

theorem emitted_append {σ : Type} (a b : List (TraceStep σ)) :
    emitted (a ++ b) = emitted a ++ emitted b := by
  induction a with
  | nil => rfl
  | cons x rest ih => cases x <;> simp [emitted, ih]

theorem emitted_map_emit {σ : Type} (l : List σ) : emitted (l.map TraceStep.emit) = l := by
  induction l with
  | nil => rfl
  | cons x rest ih => simp [emitted, ih]

theorem calls_append {σ : Type} (a b : List (TraceStep σ)) :
    calls (a ++ b) = calls a ++ calls b := by
  induction a with
  | nil => rfl
  | cons x rest ih => cases x <;> simp [calls, ih]

theorem calls_map_emit {σ : Type} (l : List σ) :
    calls (l.map (TraceStep.emit : σ → TraceStep σ)) = [] := by
  induction l with
  | nil => rfl
  | cons x rest ih => simp [calls, ih]

theorem listChangedCount_append (a b : List Signal) :
    listChangedCount (a ++ b) = listChangedCount a + listChangedCount b := by
  induction a with
  | nil => simp [listChangedCount]
  | cons x rest ih =>
      cases x
      all_goals simp [listChangedCount, ih]
      all_goals omega

theorem readerRemovedCount_append (a b : List Signal) :
    readerRemovedCount (a ++ b) = readerRemovedCount a + readerRemovedCount b := by
  induction a with
  | nil => simp [readerRemovedCount]
  | cons x rest ih =>
      cases x
      all_goals simp [readerRemovedCount, ih]
      all_goals omega

theorem errorCount_append (a b : List Signal) :
    errorCount (a ++ b) = errorCount a + errorCount b := by
  induction a with
  | nil => simp [errorCount]
  | cons x rest ih =>
      cases x
      all_goals simp [errorCount, ih]
      all_goals omega

/-- In the removal loop every reader-removed signal comes with one list-changed
signal; no error is signalled. -/
theorem counts_removeUnknown (names es : List String) (known : Known) :
    listChangedCount (removeUnknown names es known).2
        = readerRemovedCount (removeUnknown names es known).2
      ∧ errorCount (removeUnknown names es known).2 = 0 := by
  induction es generalizing known with
  | nil => simp [removeUnknown, listChangedCount, readerRemovedCount, errorCount]
  | cons e rest ih =>
      simp only [removeUnknown]
      split_ifs
      · exact ih known
      · have h := ih (removeReader e known)
        simp only [listChangedCount, readerRemovedCount, errorCount]
        exact ⟨by omega, h.2⟩

theorem counts_addNew (es : List String) (known : Known) (change : Bool) :
    listChangedCount (addNew es known change).2.2 = 0
      ∧ readerRemovedCount (addNew es known change).2.2 = 0
      ∧ errorCount (addNew es known change).2.2 = 0 := by
  induction es generalizing known change with
  | nil => simp [addNew, listChangedCount, readerRemovedCount, errorCount]
  | cons e rest ih =>
      simp only [addNew]
      split_ifs
      · exact ih known change
      · simp only [listChangedCount, readerRemovedCount, errorCount]
        exact ih _ _

theorem counts_relist (known : Known) (change : Bool) (names : List String) :
    listChangedCount (relist known change names).2.2
        = readerRemovedCount (relist known change names).2.2
      ∧ errorCount (relist known change names).2.2 = 0 := by
  simp only [relist, listChangedCount_append, readerRemovedCount_append, errorCount_append]
  have h1 := counts_removeUnknown names (keys known) known
  have h2 := counts_addNew names (removeUnknown names (keys known) known).1 change
  omega

theorem counts_diffEntry (s : Monitor) (i : SCARD_READERSTATE) :
    listChangedCount (diffEntry s i).2 = 0 ∧ readerRemovedCount (diffEntry s i).2 = 0 := by
  unfold diffEntry
  split_ifs <;> simp [listChangedCount, readerRemovedCount]

theorem counts_diffAll (l : List SCARD_READERSTATE) (s : Monitor) :
    listChangedCount (diffAll s l).2 = 0 ∧ readerRemovedCount (diffAll s l).2 = 0 := by
  induction l generalizing s with
  | nil => simp [diffAll, listChangedCount, readerRemovedCount]
  | cons i rest ih =>
      simp only [diffAll, listChangedCount_append, readerRemovedCount_append]
      have h1 := counts_diffEntry s i
      have h2 := ih (diffEntry s i).1
      omega

theorem counts_flushChange (s : Monitor) :
    listChangedCount (flushChange s).2 ≤ 1 ∧ readerRemovedCount (flushChange s).2 = 0
      ∧ errorCount (flushChange s).2 = 0 := by
  unfold flushChange
  split_ifs <;> simp [listChangedCount, readerRemovedCount, errorCount]

theorem counts_diffPhase (s : Monitor) (statuses : List SCARD_READERSTATE) :
    listChangedCount (diffPhase s statuses).2 ≤ 1
      ∧ readerRemovedCount (diffPhase s statuses).2 = 0 := by
  simp only [diffPhase, listChangedCount_append, readerRemovedCount_append]
  have h1 := counts_diffAll (pnpEvent s statuses).2 (pnpEvent s statuses).1
  have h2 := counts_flushChange (diffAll (pnpEvent s statuses).1 (pnpEvent s statuses).2).1
  omega

theorem counts_waitPhase (mac : Bool) (s : Monitor) (wait : LONG × List Reported) :
    listChangedCount (emitted (waitPhase mac s wait).2.1) ≤ 1
      ∧ readerRemovedCount (emitted (waitPhase mac s wait).2.1) = 0 := by
  unfold waitPhase
  split_ifs
  · simp [emitted, listChangedCount, readerRemovedCount]
  · simp only [emitted, emitted_map_emit]
    exact counts_diffPhase _ _
  · simp [emitted, listChangedCount, readerRemovedCount]

theorem counts_listPhase (s : Monitor) (env : CycleEnv) :
    listChangedCount (emitted (listPhase s env).2.1)
      = readerRemovedCount (emitted (listPhase s env).2.1) := by
  rcases listPhase_cases s env with ⟨-, h⟩ | ⟨-, -, h⟩ | ⟨-, -, -, -, h⟩ | ⟨-, names, h⟩ | ⟨-, h⟩
  · rw [h]; rfl
  · rw [h]; rfl
  · rw [h]; rfl
  · have he : emitted ([TraceStep.call (Call.listReaders false),
          TraceStep.call (Call.listReaders true)]
          ++ (relist s.known s.change names).2.2.map TraceStep.emit)
        = (relist s.known s.change names).2.2 := by
      rw [emitted_append, emitted_map_emit]
      rfl
    rw [h]
    simp only [he]
    exact (counts_relist _ _ _).1
  · rw [h]; rfl

/-- Claim C15, as stated, fails: with "A", "B" and "C" cached and only "C"
enumerated, one cycle removes "A" and "B" and emits the list-changed signal
twice.  The monitor gets into that state when "A" and "B" were reported unknown
in the cycle before. -/
theorem two_list_changed_in_one_cycle :
    (loop false (startState true noPnpProbe) unplugTwo).1 = threeReaders
      ∧ emitted (cycle false threeReaders listsC).2.1
          = [Signal.readerRemoved "A",
             Signal.readerListChanged [("B", ["EMPTY"]), ("C", ["EMPTY"])],
             Signal.readerRemoved "B",
             Signal.readerListChanged [("C", ["EMPTY"])]]
      ∧ listChangedCount (emitted (cycle false threeReaders listsC).2.1) = 2 := by
  decide

/-- Claim C15, amended: in a poll cycle the re-listing step emits one
list-changed signal with each reader-removed signal, and the rest of the cycle
(new readers, cards inserted or removed) emits the list-changed signal at most
once: the number of list-changed signals of a cycle is the number of
reader-removed signals or one more. -/
theorem list_changed_per_cycle (mac : Bool) (s : Monitor) (env : CycleEnv) :
    readerRemovedCount (emitted (cycle mac s env).2.1)
        ≤ listChangedCount (emitted (cycle mac s env).2.1)
      ∧ listChangedCount (emitted (cycle mac s env).2.1)
        ≤ readerRemovedCount (emitted (cycle mac s env).2.1) + 1
      ∧ listChangedCount (emitted (waitPhase mac (listPhase s env).1 env.wait).2.1) ≤ 1 := by
  have hl := counts_listPhase s env
  have hw := counts_waitPhase mac (listPhase s env).1 env.wait
  unfold cycle
  cases h : (listPhase s env).2.2 with
  | some next =>
      simp only []
      omega
  | none =>
      simp only [emitted_append, listChangedCount_append, readerRemovedCount_append]
      omega

theorem errorCount_listPhase_passed (s : Monitor) (env : CycleEnv)
    (hp : (listPhase s env).2.2 = none) : errorCount (emitted (listPhase s env).2.1) = 0 := by
  rcases listPhase_cases s env with ⟨-, h⟩ | ⟨-, -, h⟩ | ⟨-, -, -, -, h⟩ | ⟨-, names, h⟩ | ⟨-, h⟩
  · rw [h]; rfl
  · rw [h] at hp; exact absurd hp (by simp)
  · rw [h] at hp; exact absurd hp (by simp)
  · have he : emitted ([TraceStep.call (Call.listReaders false),
          TraceStep.call (Call.listReaders true)]
          ++ (relist s.known s.change names).2.2.map TraceStep.emit)
        = (relist s.known s.change names).2.2 := by
      rw [emitted_append, emitted_map_emit]
      rfl
    rw [h]
    simp only [he]
    exact (counts_relist _ _ _).2
  · rw [h] at hp; exact absurd hp (by simp)

theorem cycle_of_listPhase_some (mac : Bool) (s : Monitor) (env : CycleEnv) (next : Next)
    (h : (listPhase s env).2.2 = some next) :
    cycle mac s env = ((listPhase s env).1, (listPhase s env).2.1, next) := by
  unfold cycle
  rw [h]

theorem cycle_of_listPhase_none (mac : Bool) (s : Monitor) (env : CycleEnv)
    (h : (listPhase s env).2.2 = none) :
    cycle mac s env
      = ((waitPhase mac (listPhase s env).1 env.wait).1,
         (listPhase s env).2.1 ++ (waitPhase mac (listPhase s env).1 env.wait).2.1,
         (waitPhase mac (listPhase s env).1 env.wait).2.2) := by
  unfold cycle
  rw [h]

theorem waitPhase_failed (mac : Bool) (s : Monitor) (wait : LONG × List Reported)
    (h0 : wait.1 ≠ SCARD_S_SUCCESS) (h1 : wait.1 ≠ SCARD_E_TIMEOUT)
    (h2 : wait.1 ≠ SCARD_E_UNKNOWN_READER) :
    waitPhase mac s wait
      = (afterQuery mac s,
         [TraceStep.call (Call.getStatusChange 600000 (statusVector mac s))], Next.leave) := by
  unfold waitPhase
  rw [if_neg h2, if_neg (fun hc => hc.elim h1 h0), loopCondition_leave _ h1 h0]

/-- Claim C16, evaluated at the failing input: the first status wait fails with
`SCARD_E_NO_SERVICE`; the loop ends and the context is released, and no error
signal is emitted, so the status of the failed call is lost. -/
theorem failed_wait_without_error :
    (run false true failedWaitRun).2.2 = Next.leave
      ∧ emitted (run false true failedWaitRun).2.1 = [Signal.readerAttached "R"]
      ∧ calls (run false true failedWaitRun).2.1
          = [Call.establishContext,
             Call.getStatusChange 0 [queryEntry PNP_READER_NAME SCARD_STATE_UNAWARE],
             Call.listReaders false, Call.listReaders true,
             Call.getStatusChange 600000 [queryEntry "R" SCARD_STATE_UNAWARE],
             Call.releaseContext] := by
  decide

/-- Where `run` emits error signals.  When context establishment fails, `run`
returns after an error signal with empty reader name and the status of that
call; when one of the two listing calls fails, the cycle returns after an error
signal with empty reader name and the status of that call.  A cycle whose
status wait fails with a status other than unknown-reader ends the loop
with no error signal.  The trace of a run does not depend on the status of the
context release. -/
theorem run_error_signals :
    (∀ (mac pnp0 : Bool) (env : RunEnv), env.establish ≠ SCARD_S_SUCCESS →
        (run mac pnp0 env).2
          = ([TraceStep.call Call.establishContext,
              TraceStep.emit (Signal.error "" env.establish)], Next.returned))
      ∧ (∀ (mac : Bool) (s : Monitor) (env : CycleEnv),
          s.list = true → env.listSize.1 ≠ SCARD_S_SUCCESS →
            (cycle mac s env).2
              = ([TraceStep.call (Call.listReaders false),
                  TraceStep.emit (Signal.error "" env.listSize.1)], Next.returned))
      ∧ (∀ (mac : Bool) (s : Monitor) (env : CycleEnv),
          s.list = true → env.listSize.1 = SCARD_S_SUCCESS → env.listSize.2 ≠ 0 →
          env.listData.1 ≠ SCARD_S_SUCCESS →
            (cycle mac s env).2
              = ([TraceStep.call (Call.listReaders false), TraceStep.call (Call.listReaders true),
                  TraceStep.emit (Signal.error "" env.listData.1)], Next.returned))
      ∧ (∀ (mac : Bool) (s : Monitor) (env : CycleEnv),
          (listPhase s env).2.2 = none → env.wait.1 ≠ SCARD_S_SUCCESS →
          env.wait.1 ≠ SCARD_E_TIMEOUT → env.wait.1 ≠ SCARD_E_UNKNOWN_READER →
            (cycle mac s env).2.2 = Next.leave
              ∧ errorCount (emitted (cycle mac s env).2.1) = 0)
      ∧ (∀ (mac pnp0 : Bool) (env : RunEnv) (status : LONG),
          run mac pnp0 { env with release := status } = run mac pnp0 env) := by
  refine ⟨fun mac pnp0 env he => ?_, fun mac s env hl h1 => ?_, fun mac s env hl h1 h2 h3 => ?_,
    fun mac s env hp h0 h1 h2 => ?_, fun mac pnp0 env status => rfl⟩
  · unfold run
    rw [if_pos he]
  · have hlp : listPhase s env
        = ({ s with readernames := [] },
           [TraceStep.call (Call.listReaders false),
            TraceStep.emit (Signal.error "" env.listSize.1)],
           some Next.returned) := by
      unfold listPhase
      rw [if_pos hl, if_pos (Or.inl h1)]
    rw [cycle_of_listPhase_some mac s env Next.returned (by rw [hlp]), hlp]
  · have hlp : listPhase s env
        = ({ s with readernames := [] },
           [TraceStep.call (Call.listReaders false), TraceStep.call (Call.listReaders true),
            TraceStep.emit (Signal.error "" env.listData.1)],
           some Next.returned) := by
      unfold listPhase
      rw [if_pos hl, if_neg (fun hc => hc.elim (fun h => h h1) h2), if_pos h3]
    rw [cycle_of_listPhase_some mac s env Next.returned (by rw [hlp]), hlp]
  · rw [cycle_of_listPhase_none mac s env hp, waitPhase_failed mac _ _ h0 h1 h2]
    refine ⟨rfl, ?_⟩
    simp only [emitted_append, errorCount_append, errorCount_listPhase_passed s env hp]
    rfl

/-! ## Lemmas on the flags `pnp` and `list` -/

theorem pnp_listPhase (s : Monitor) (env : CycleEnv) : (listPhase s env).1.pnp = s.pnp := by
  rcases listPhase_cases s env with ⟨-, h⟩ | ⟨-, -, h⟩ | ⟨-, -, -, -, h⟩ | ⟨-, names, h⟩ | ⟨-, h⟩
  all_goals rw [h]

theorem list_listPhase_passed (s : Monitor) (env : CycleEnv)
    (hp : (listPhase s env).2.2 = none) : (listPhase s env).1.list = false := by
  rcases listPhase_cases s env with ⟨hl, h⟩ | ⟨-, -, h⟩ | ⟨-, -, -, -, h⟩ | ⟨-, names, h⟩ | ⟨-, h⟩
  · rw [h]; exact hl
  · rw [h] at hp; exact absurd hp (by simp)
  · rw [h] at hp; exact absurd hp (by simp)
  · rw [h]
  · rw [h] at hp; exact absurd hp (by simp)

theorem listPhase_not_listing (s : Monitor) (env : CycleEnv) (hl : s.list = false) :
    listPhase s env = (s, [], none) := by
  unfold listPhase
  simp [hl]

theorem diffEntry_fields (s : Monitor) (i : SCARD_READERSTATE) :
    (diffEntry s i).1.pnp = s.pnp ∧ (diffEntry s i).1.readernames = s.readernames
      ∧ (diffEntry s i).1.list
          = (s.list || (hasFlag i.dwEventState SCARD_STATE_CHANGED
                          && hasFlag i.dwEventState SCARD_STATE_UNKNOWN)) := by
  unfold diffEntry
  cases hc : hasFlag i.dwEventState SCARD_STATE_CHANGED
  · simp
  · cases hu : hasFlag i.dwEventState SCARD_STATE_UNKNOWN
    · simp only [Bool.not_true, Bool.false_eq_true, if_false, Bool.and_false, Bool.or_false]
      split_ifs <;> exact ⟨rfl, rfl, rfl⟩
    · simp

theorem diffAll_fields (l : List SCARD_READERSTATE) (s : Monitor) :
    (diffAll s l).1.pnp = s.pnp ∧ (diffAll s l).1.readernames = s.readernames
      ∧ (diffAll s l).1.list
          = (s.list || l.any (fun i => hasFlag i.dwEventState SCARD_STATE_CHANGED
                                        && hasFlag i.dwEventState SCARD_STATE_UNKNOWN)) := by
  induction l generalizing s with
  | nil => simp [diffAll]
  | cons i rest ih =>
      obtain ⟨h1, h2, h3⟩ := ih (diffEntry s i).1
      obtain ⟨e1, e2, e3⟩ := diffEntry_fields s i
      simp only [diffAll, List.any_cons]
      refine ⟨h1.trans e1, h2.trans e2, ?_⟩
      rw [h3, e3, Bool.or_assoc]

theorem diffPhase_no_pnp (s : Monitor) (statuses : List SCARD_READERSTATE)
    (hp : s.pnp = false) :
    (diffPhase s statuses).1.pnp = false
      ∧ (diffPhase s statuses).1.readernames = s.readernames
      ∧ (diffPhase s statuses).1.list
          = (s.list || statuses.any (fun i => hasFlag i.dwEventState SCARD_STATE_CHANGED
                                        && hasFlag i.dwEventState SCARD_STATE_UNKNOWN)) := by
  have hpe : pnpEvent s statuses = (s, statuses) := by
    unfold pnpEvent
    simp [hp]
  obtain ⟨h1, h2, h3⟩ := diffAll_fields statuses s
  have hf : ∀ m : Monitor, (flushChange m).1.pnp = m.pnp
      ∧ (flushChange m).1.readernames = m.readernames ∧ (flushChange m).1.list = m.list := by
    intro m
    unfold flushChange
    split_ifs <;> exact ⟨rfl, rfl, rfl⟩
  simp only [diffPhase, hpe]
  obtain ⟨f1, f2, f3⟩ := hf (diffAll s statuses).1
  exact ⟨by rw [f1, h1, hp], by rw [f2, h2], by rw [f3, h3]⟩

theorem waitPhase_no_pnp (mac : Bool) (s : Monitor) (wait : LONG × List Reported)
    (hp : s.pnp = false) :
    (waitPhase mac s wait).1.pnp = false
      ∧ (waitPhase mac s wait).1.readernames = s.readernames := by
  have ha : (afterQuery mac s).pnp = false := hp
  unfold waitPhase
  split_ifs
  · exact ⟨hp, rfl⟩
  · obtain ⟨h1, h2, -⟩ := diffPhase_no_pnp (afterQuery mac s)
      (fill (statusVector mac s) wait.2) ha
    exact ⟨h1, h2⟩
  · exact ⟨hp, rfl⟩

theorem calls_waitPhase (mac : Bool) (s : Monitor) (wait : LONG × List Reported) :
    calls (waitPhase mac s wait).2.1 = [Call.getStatusChange 600000 (statusVector mac s)] := by
  unfold waitPhase
  split_ifs
  · rfl
  · simp only [calls, calls_map_emit]
  · rfl

theorem statusVector_no_pnp (mac : Bool) (s : Monitor) (hp : s.pnp = false) :
    (statusVector mac s).map (fun i => i.szReader) = s.readernames := by
  unfold statusVector
  rw [hp]
  simp only [Bool.false_eq_true, if_false, List.append_nil, List.map_map]
  induction s.readernames with
  | nil => rfl
  | cons r rest ih =>
      simp only [List.map_cons, ih]
      rfl

theorem getStatusChange_not_mem_listPhase (s : Monitor) (env : CycleEnv) (t : Nat)
    (v : List SCARD_READERSTATE) :
    Call.getStatusChange t v ∉ calls (listPhase s env).2.1 := by
  rcases listPhase_cases s env with ⟨-, h⟩ | ⟨-, -, h⟩ | ⟨-, -, -, -, h⟩ | ⟨-, names, h⟩ | ⟨-, h⟩
  · rw [h]; simp [calls]
  · rw [h]; simp [calls]
  · rw [h]; simp [calls]
  · rw [h]; simp [calls, calls_append, calls_map_emit]
  · rw [h]; simp [calls]

theorem pnp_cycle (mac : Bool) (s : Monitor) (env : CycleEnv) (hp : s.pnp = false) :
    (cycle mac s env).1.pnp = false := by
  cases h : (listPhase s env).2.2 with
  | some next =>
      rw [cycle_of_listPhase_some mac s env next h]
      exact (pnp_listPhase s env).trans hp
  | none =>
      rw [cycle_of_listPhase_none mac s env h]
      exact (waitPhase_no_pnp mac _ _ ((pnp_listPhase s env).trans hp)).1

theorem pnp_loop (mac : Bool) (envs : List CycleEnv) (s : Monitor) (hp : s.pnp = false) :
    (loop mac s envs).1.pnp = false := by
  induction envs generalizing s with
  | nil => exact hp
  | cons env rest ih =>
      simp only [loop]
      cases h : (cycle mac s env).2.2 with
      | again => exact ih _ (pnp_cycle mac s env hp)
      | leave => exact pnp_cycle mac s env hp
      | returned => exact pnp_cycle mac s env hp
      | undefined => exact pnp_cycle mac s env hp

/-- Claim C18, as stated, fails: without plug-and-play support the first status
wait ends by timeout, and the second cycle goes straight to the next status wait
without listing the readers. -/
theorem timeout_without_relisting :
    (startState true timeoutsRun.probe).pnp = false
      ∧ calls (run false true timeoutsRun).2.1
          = [Call.establishContext,
             Call.getStatusChange 0 [queryEntry PNP_READER_NAME SCARD_STATE_UNAWARE],
             Call.listReaders false, Call.listReaders true,
             Call.getStatusChange 600000 [queryEntry "R" SCARD_STATE_UNAWARE],
             Call.getStatusChange 600000 [queryEntry "R" SCARD_STATE_UNAWARE]] := by
  decide

/-- Claim C18, amended: when the startup probe times out with the unknown bit,
`pnp` is cleared, it stays cleared in every cycle of the loop, and the vector
of every status wait has exactly one entry per reader name, without the
pseudo-reader.  A status wait that ends by timeout lets the loop go on, and
the next cycle lists the readers again only if that wait reported a reader as
changed and unknown: a cycle lists the readers exactly when it starts with
`list` set, and after a timeout `list` is set exactly in that case. -/
theorem no_pnp_relisting :
    (∀ (pnp0 : Bool) (st : DWORD), hasFlag st SCARD_STATE_UNKNOWN = true →
        (startState pnp0 (SCARD_E_TIMEOUT, st)).pnp = false)
      ∧ (∀ (mac : Bool) (envs : List CycleEnv) (s : Monitor), s.pnp = false →
          (loop mac s envs).1.pnp = false)
      ∧ (∀ (mac : Bool) (s : Monitor) (env : CycleEnv), s.pnp = false →
          ∀ t v, Call.getStatusChange t v ∈ calls (cycle mac s env).2.1 →
            v.map (fun i => i.szReader) = (cycle mac s env).1.readernames)
      ∧ (∀ (mac : Bool) (s : Monitor) (env : CycleEnv), s.pnp = false →
          (listPhase s env).2.2 = none → env.wait.1 = SCARD_E_TIMEOUT →
            (cycle mac s env).2.2 = Next.again
              ∧ ((cycle mac s env).1.list = true ↔
                  ∃ i ∈ fill (statusVector mac (listPhase s env).1) env.wait.2,
                    hasFlag i.dwEventState SCARD_STATE_CHANGED = true
                      ∧ hasFlag i.dwEventState SCARD_STATE_UNKNOWN = true))
      ∧ (∀ (mac : Bool) (s : Monitor) (env : CycleEnv), s.list = false →
          calls (cycle mac s env).2.1 = [Call.getStatusChange 600000 (statusVector mac s)])
      ∧ (∀ (mac : Bool) (s : Monitor) (env : CycleEnv), s.list = true →
          (calls (cycle mac s env).2.1).head? = some (Call.listReaders false)) := by
  refine ⟨fun pnp0 st hu => ?_, pnp_loop, fun mac s env hp t v hmem => ?_,
    fun mac s env hp hpass hto => ?_, fun mac s env hl => ?_, fun mac s env hl => ?_⟩
  · simp [startState, hu]
  · have hp1 : (listPhase s env).1.pnp = false := (pnp_listPhase s env).trans hp
    cases h : (listPhase s env).2.2 with
    | some next =>
        rw [cycle_of_listPhase_some mac s env next h] at hmem
        exact absurd hmem (getStatusChange_not_mem_listPhase s env t v)
    | none =>
        rw [cycle_of_listPhase_none mac s env h] at hmem ⊢
        simp only [calls_append, calls_waitPhase, List.mem_append, List.mem_singleton] at hmem
        rcases hmem with hmem | hmem
        · exact absurd hmem (getStatusChange_not_mem_listPhase s env t v)
        · have hv : v = statusVector mac (listPhase s env).1 := by
            injection hmem
          rw [hv, statusVector_no_pnp mac _ hp1]
          exact ((waitPhase_no_pnp mac _ env.wait hp1).2).symm
  · have hp1 : (listPhase s env).1.pnp = false := (pnp_listPhase s env).trans hp
    have hne : env.wait.1 ≠ SCARD_E_UNKNOWN_READER := by
      rw [hto]; decide
    have hw : waitPhase mac (listPhase s env).1 env.wait
        = ((diffPhase (afterQuery mac (listPhase s env).1)
              (fill (statusVector mac (listPhase s env).1) env.wait.2)).1,
           TraceStep.call (Call.getStatusChange 600000 (statusVector mac (listPhase s env).1))
             :: (diffPhase (afterQuery mac (listPhase s env).1)
                  (fill (statusVector mac (listPhase s env).1) env.wait.2)).2.map TraceStep.emit,
           Next.again) := by
      unfold waitPhase
      rw [if_neg hne, if_pos (Or.inl hto), loopCondition_again _ (Or.inl hto)]
    rw [cycle_of_listPhase_none mac s env hpass, hw]
    refine ⟨rfl, ?_⟩
    have hd := (diffPhase_no_pnp (afterQuery mac (listPhase s env).1)
      (fill (statusVector mac (listPhase s env).1) env.wait.2) hp1).2.2
    have hl0 : (afterQuery mac (listPhase s env).1).list = false :=
      list_listPhase_passed s env hpass
    simp only [hd, hl0, Bool.false_or, List.any_eq_true, Bool.and_eq_true]
  · rw [cycle_of_listPhase_none mac s env (by rw [listPhase_not_listing s env hl]),
      listPhase_not_listing s env hl]
    simp only [List.nil_append, calls_waitPhase]
  · rcases listPhase_cases s env with ⟨hf, -⟩ | ⟨-, -, h⟩ | ⟨-, -, -, -, h⟩ | ⟨-, names, h⟩ | ⟨-, h⟩
    · rw [hl] at hf
      exact absurd hf (by simp)
    · rw [cycle_of_listPhase_some mac s env Next.returned (by rw [h]), h]
      rfl
    · rw [cycle_of_listPhase_some mac s env Next.returned (by rw [h]), h]
      rfl
    · rw [cycle_of_listPhase_none mac s env (by rw [h]), h]
      rfl
    · rw [cycle_of_listPhase_some mac s env Next.undefined (by rw [h]), h]
      rfl

/-- Claim C18 amended, at a concrete input: the probe result of the scenario
clears `pnp`. -/
theorem no_pnp_relisting_witness : (startState true noPnpProbe).pnp = false :=
  no_pnp_relisting.1 true (SCARD_STATE_UNKNOWN ||| SCARD_STATE_CHANGED) (by decide)

/-! ## The name extraction loop (C21) -/

theorem mem_setInsert (x n : String) (l : List String) :
    n ∈ setInsert x l ↔ n = x ∨ n ∈ l := by
  induction l with
  | nil => simp [setInsert]
  | cons a rest ih =>
      simp only [setInsert]
      split_ifs with h1 h2
      · subst h1
        simp
      · simp
      · simp only [List.mem_cons, ih]
        constructor
        · rintro (h | h | h)
          · exact Or.inr (Or.inl h)
          · exact Or.inl h
          · exact Or.inr (Or.inr h)
        · rintro (h | h | h)
          · exact Or.inr (Or.inl h)
          · exact Or.inl h
          · exact Or.inr (Or.inr h)

/-- A buffer either holds no NUL, or it is cut at its first NUL into the name
before it and the rest after it. -/
theorem cut_at_nul (chars : List Char) :
    (chars.dropWhile (fun x => x != NUL) = [] ∧ ∀ x ∈ chars, x ≠ NUL)
      ∨ ∃ rest, chars.dropWhile (fun x => x != NUL) = NUL :: rest
          ∧ chars = chars.takeWhile (fun x => x != NUL) ++ NUL :: rest := by
  induction chars with
  | nil => exact Or.inl ⟨rfl, by simp⟩
  | cons c cs ih =>
      by_cases hc : c = NUL
      · subst hc
        exact Or.inr ⟨cs, by simp [List.dropWhile], by simp [List.takeWhile]⟩
      · have hb : (c != NUL) = true := by simpa using hc
        rcases ih with ⟨h1, h2⟩ | ⟨rest, h1, h2⟩
        · left
          refine ⟨by simp [List.dropWhile, hb, h1], ?_⟩
          intro x hx
          rcases List.mem_cons.mp hx with h | h
          · rw [h]; exact hc
          · exact h2 x h
        · right
          refine ⟨rest, by simp [List.dropWhile, hb, h1], ?_⟩
          simp only [List.takeWhile, hb, List.cons_append]
          rw [← h2]

theorem nulSegments_nil : nulSegments [] = [] := rfl

/-- Segments of a buffer cut at its first NUL: the name before it, when it is
not empty, and the segments of the rest. -/
theorem nulSegments_cut (name rest : List Char) (hname : ∀ x ∈ name, x ≠ NUL) :
    nulSegments (name ++ NUL :: rest)
      = (if name = [] then [] else [name]) ++ nulSegments rest := by
  unfold nulSegments List.splitOn
  rw [List.splitOnP_first (fun x => x == NUL) name (fun x hx => by simpa using hname x hx) NUL
    (by simp) rest]
  cases name with
  | nil => simp [List.filter]
  | cons a l => simp [List.filter]

/-- The rest after a NUL of a buffer that ends with NUL is empty or ends with
NUL. -/
theorem rest_terminated (name rest : List Char)
    (hend : (name ++ NUL :: rest).getLast? = some NUL) :
    rest = [] ∨ rest.getLast? = some NUL := by
  cases rest with
  | nil => exact Or.inl rfl
  | cons a l =>
      right
      rw [List.getLast?_append, List.getLast?_cons_cons] at hend
      cases hl : (a :: l).getLast? with
      | none => simp at hl
      | some y =>
          rw [hl] at hend
          simpa using hend

/-- With fuel for every character of the buffer, the loop over a buffer that is
empty or ends with NUL finishes inside the buffer, and it adds to the names
exactly the non-empty NUL-delimited segments. -/
theorem extractNames_terminated (fuel : Nat) :
    ∀ (chars : List Char) (acc : List String), chars.length ≤ fuel →
      (chars = [] ∨ chars.getLast? = some NUL) →
      ∃ names, extractNames fuel chars acc = Extracted.names names
        ∧ ∀ n : String, n ∈ names ↔ n ∈ acc ∨ n.toList ∈ nulSegments chars := by
  induction fuel with
  | zero =>
      intro chars acc hlen _
      have hnil : chars = [] := List.length_eq_zero.mp (Nat.le_zero.mp hlen)
      subst hnil
      exact ⟨acc, rfl, fun n => by simp [nulSegments_nil]⟩
  | succ fuel ih =>
      intro chars acc hlen hend
      cases chars with
      | nil => exact ⟨acc, rfl, fun n => by simp [nulSegments_nil]⟩
      | cons c cs =>
          have hlast : (c :: cs).getLast? = some NUL := by
            rcases hend with h | h
            · exact absurd h (by simp)
            · exact h
          rcases cut_at_nul (c :: cs) with ⟨-, hall⟩ | ⟨rest, hdrop, hcut⟩
          · exact absurd (hall NUL (List.mem_of_getLast?_eq_some hlast)) (by simp)
          · have hname : ∀ x ∈ (c :: cs).takeWhile (fun x => x != NUL), x ≠ NUL := by
              intro x hx
              simpa using List.mem_takeWhile_imp hx
            have hrest : rest = [] ∨ rest.getLast? = some NUL := by
              rw [hcut] at hlast
              exact rest_terminated _ rest hlast
            have hrlen : rest.length ≤ fuel := by
              have h := congrArg List.length hcut
              simp only [List.length_append, List.length_cons] at h hlen
              omega
            have hseg := nulSegments_cut _ rest hname
            rw [← hcut] at hseg
            simp only [extractNames, hdrop]
            by_cases hempty : (c :: cs).takeWhile (fun x => x != NUL) = []
            · rw [if_pos hempty]
              obtain ⟨names, hres, hmem⟩ := ih rest acc hrlen hrest
              refine ⟨names, hres, fun n => ?_⟩
              rw [hmem, hseg, if_pos hempty, List.nil_append]
            · rw [if_neg hempty]
              obtain ⟨names, hres, hmem⟩ := ih rest
                (setInsert (String.mk ((c :: cs).takeWhile (fun x => x != NUL))) acc) hrlen hrest
              refine ⟨names, hres, fun n => ?_⟩
              rw [hmem, hseg, if_neg hempty, mem_setInsert]
              have hn : n = String.mk ((c :: cs).takeWhile (fun x => x != NUL))
                  ↔ n.toList = (c :: cs).takeWhile (fun x => x != NUL) := by
                constructor
                · intro h
                  rw [h]
                  rfl
                · intro h
                  rw [← h]
                  rfl
              simp only [List.singleton_append, List.mem_cons, hn]
              constructor
              · rintro ((h | h) | h)
                · exact Or.inr (Or.inl h)
                · exact Or.inl h
                · exact Or.inr (Or.inr h)
              · rintro (h | h | h)
                · exact Or.inl (Or.inr h)
                · exact Or.inl (Or.inl h)
                · exact Or.inr h

/-- Claim C21: for every buffer that ends with a NUL, the name extraction loop,
with the fuel the listing phase gives it (one unit per character, or more),
finishes without stepping past the end of the buffer, and the names it returns
are exactly the non-empty NUL-delimited segments of the buffer. -/
theorem extractNames_of_terminated (readers : List Char) (fuel : Nat)
    (hend : readers.getLast? = some NUL) (hfuel : readers.length ≤ fuel) :
    ∃ names, extractNames fuel readers [] = Extracted.names names
      ∧ ∀ n : String, n ∈ names ↔ n.toList ∈ nulSegments readers := by
  obtain ⟨names, hres, hmem⟩ := extractNames_terminated fuel readers [] hfuel (Or.inr hend)
  exact ⟨names, hres, fun n => by rw [hmem]; simp⟩

/-- Claim C21, at a concrete input: the buffer that lists "R" and "S". -/
theorem extractNames_of_terminated_witness :
    extractNames buffer_RS.length buffer_RS [] = Extracted.names ["R", "S"]
      ∧ nulSegments buffer_RS = [['R'], ['S']]
      ∧ ∃ names, extractNames buffer_RS.length buffer_RS [] = Extracted.names names
          ∧ ∀ n : String, n ∈ names ↔ n.toList ∈ nulSegments buffer_RS :=
  ⟨by decide, by decide,
    extractNames_of_terminated buffer_RS buffer_RS.length (by decide) (Nat.le_refl _)⟩

end WebEid
